import Mathlib

/-!
# Imprint — relay coordination and event protocol engine: shallow embedding

This file embeds the core data model and operations of the Imprint
repository (`app/nostr/event.py`, `app/nostr/key.py`,
`app/nostr/relay_client.py`, `app/services/engagement.py`) as executable
Lean definitions, and proves or refutes the frozen specification claims
about them.

Modelling conventions:
* Python `Dict[str, Any]` values are modelled by the inductive `PyVal`
  (strings, unbounded ints, lists, string-keyed dicts, and `bytes`, which
  is the representative non-JSON-serializable value).
* Fallible Python code is modelled with `Except PyErr _`; the exception
  classes that the source distinguishes are the constructors of `PyErr`.
* External cryptographic primitives from the `ecdsa` library (key
  derivation, `sign_digest`, `verify_digest`, `VerifyingKey.from_string`)
  and `hashlib.sha256` are opaque to this repository, so they are
  parameters of the definitions; the repository's own plumbing around
  them (hex codecs, canonical serialization, dict access, exception
  handling) is modelled concretely.
* `time.time()` is passed explicitly as a rational `now`.
-/

namespace Imprint

/-! ## Hex codec (Python `bytes.hex()` / `bytes.fromhex`) -/

/-- Lower-case hex digit for a value, as produced by `bytes.hex()`. -/
def hexDigitCh (n : Nat) : Char :=
  if n < 10 then Char.ofNat (48 + n) else Char.ofNat (87 + (n % 16))

/-- `bytes.hex()`: two lowercase hex digits per byte. -/
def hexEncode (bs : List Nat) : String :=
  String.mk (bs.foldr (fun b acc => hexDigitCh (b / 16 % 16) :: hexDigitCh (b % 16) :: acc) [])

/-- Value of one hex digit (`0-9a-fA-F`), as accepted by `bytes.fromhex`. -/
def hexCharVal (c : Char) : Option Nat :=
  if 48 ≤ c.toNat ∧ c.toNat ≤ 57 then some (c.toNat - 48)
  else if 97 ≤ c.toNat ∧ c.toNat ≤ 102 then some (c.toNat - 87)
  else if 65 ≤ c.toNat ∧ c.toNat ≤ 70 then some (c.toNat - 55)
  else none

/-- `bytes.fromhex` on a list of characters: strict pairs of hex digits. -/
def hexDecodeChars : List Char → Option (List Nat)
  | [] => some []
  | [_] => none
  | c1 :: c2 :: rest => do
      let h ← hexCharVal c1
      let l ← hexCharVal c2
      let r ← hexDecodeChars rest
      some ((16 * h + l) :: r)

/-- `bytes.fromhex(s)`. -/
def hexDecode (s : String) : Option (List Nat) :=
  hexDecodeChars s.data

theorem hexCharVal_hexDigitCh {n : Nat} (h : n < 16) :
    hexCharVal (hexDigitCh n) = some n := by
  interval_cases n <;> rfl

theorem hexDecode_hexEncode (bs : List Nat) (h : ∀ b ∈ bs, b < 256) :
    hexDecode (hexEncode bs) = some bs := by
  induction bs with
  | nil => rfl
  | cons b rest ih =>
      have hb : b < 256 := h b (by simp)
      have hrest := ih (fun x hx => h x (by simp [hx]))
      have h1 : b / 16 % 16 < 16 := Nat.mod_lt _ (by norm_num)
      have h2 : b % 16 < 16 := Nat.mod_lt _ (by norm_num)
      have hd16 : b / 16 < 16 := Nat.div_lt_of_lt_mul (by omega)
      have h1' : b / 16 % 16 = b / 16 := Nat.mod_eq_of_lt hd16
      simp only [hexEncode, hexDecode] at hrest ⊢
      simp only [List.foldr_cons]
      show hexDecodeChars (hexDigitCh (b / 16 % 16) :: hexDigitCh (b % 16) :: _) = _
      rw [hexDecodeChars]
      rw [hexCharVal_hexDigitCh h1, hexCharVal_hexDigitCh h2]
      simp only [Option.bind_eq_bind, Option.some_bind]
      rw [hrest]
      simp only [Option.some_bind, Option.some.injEq, List.cons.injEq, and_true]
      omega

/-! ## Python values, exceptions and dicts -/

/-- Python exception classes distinguished by the sources under study.
`assertionError` stands for `ecdsa.MalformedPointError`, which subclasses
`AssertionError`. `badSignature` is `ecdsa.BadSignatureError`. -/
inductive PyErr where
  | keyError
  | valueError
  | typeError
  | assertionError
  | badSignature
  deriving DecidableEq, Repr

/-- Python values that can appear in an event dict.  `bytes` is the
representative value that `json.dumps` refuses to serialize. -/
inductive PyVal where
  | str (s : String)
  | int (n : Int)
  | list (l : List PyVal)
  | dict (entries : List (String × PyVal))
  | bytes (b : List Nat)

/-- A Python dict with string keys (keys are unique in Python dicts). -/
abbrev PyDict := List (String × PyVal)

/-- `d[k]` read access: first entry with the key. -/
def dictGet (d : PyDict) (k : String) : Option PyVal :=
  match d with
  | [] => none
  | (k', v) :: rest => if k' = k then some v else dictGet rest k

/-- `d[k] = v`: replace in place if the key exists, else append
(Python dicts preserve insertion order). -/
def dictSet (d : PyDict) (k : String) (v : PyVal) : PyDict :=
  if (dictGet d k).isSome then
    d.map (fun kv => if kv.1 = k then (k, v) else kv)
  else
    d ++ [(k, v)]

/-- `d[k]` access raising `KeyError` when absent. -/
def getItem (d : PyDict) (k : String) : Except PyErr PyVal :=
  match dictGet d k with
  | some v => .ok v
  | none => .error .keyError

/-! ## `json.dumps`

`pyDumps sortKeys isep ksep v` models `json.dumps(v, sort_keys=sortKeys,
separators=(isep, ksep), ensure_ascii=False)`.  With `ensure_ascii=False`
only `"`, `\` and control characters below U+0020 are escaped.
Non-serializable values (`bytes`) raise `TypeError`. -/

/-- JSON escape of one character, as `json.dumps(..., ensure_ascii=False)`. -/
def jsonEscapeChar (c : Char) : String :=
  if c = '"' then "\\\""
  else if c = '\\' then "\\\\"
  else if c.toNat < 32 then
    match c.toNat with
    | 8 => "\\b"
    | 9 => "\\t"
    | 10 => "\\n"
    | 12 => "\\f"
    | 13 => "\\r"
    | n => "\\u00" ++ String.mk [hexDigitCh (n / 16 % 16), hexDigitCh (n % 16)]
  else String.singleton c

/-- A JSON string literal. -/
def jsonQuote (s : String) : String :=
  "\"" ++ s.data.foldr (fun c acc => jsonEscapeChar c ++ acc) "" ++ "\""

/-- Stable insertion sort of dict items by key, as `sorted(dct.items())`
(keys in one dict are distinct, so comparison never reaches values). -/
def sortEntriesByKey : List (String × String) → List (String × String)
  | [] => []
  | e :: rest => insertEntry e (sortEntriesByKey rest)
where
  insertEntry (e : String × String) : List (String × String) → List (String × String)
    | [] => [e]
    | f :: fs => if e.1 ≤ f.1 then e :: f :: fs else f :: insertEntry e fs

mutual

/-- `json.dumps` body for one value. -/
def pyDumps (sortKeys : Bool) (isep ksep : String) : PyVal → Except PyErr String
  | .str s => .ok (jsonQuote s)
  | .int n => .ok (toString n)
  | .list l => do
      let parts ← pyDumpsList sortKeys isep ksep l
      .ok ("[" ++ String.intercalate isep parts ++ "]")
  | .dict entries => do
      let rendered ← pyDumpsEntries sortKeys isep ksep entries
      let rendered := if sortKeys then sortEntriesByKey rendered else rendered
      .ok ("\x7b" ++
        String.intercalate isep (rendered.map (fun kv => jsonQuote kv.1 ++ ksep ++ kv.2)) ++
        "\x7d")
  | .bytes _ => .error .typeError

/-- Render every element of a JSON array. -/
def pyDumpsList (sortKeys : Bool) (isep ksep : String) :
    List PyVal → Except PyErr (List String)
  | [] => .ok []
  | v :: vs => do
      let s ← pyDumps sortKeys isep ksep v
      let rest ← pyDumpsList sortKeys isep ksep vs
      .ok (s :: rest)

/-- Render every entry of a JSON object, keeping the key for sorting. -/
def pyDumpsEntries (sortKeys : Bool) (isep ksep : String) :
    List (String × PyVal) → Except PyErr (List (String × String))
  | [] => .ok []
  | (k, v) :: rest => do
      let s ← pyDumps sortKeys isep ksep v
      let r ← pyDumpsEntries sortKeys isep ksep rest
      .ok ((k, s) :: r)

end

/-! ## `app/nostr/event.py` -/

/-- The external `ecdsa` SECP256k1 primitives used by `event.py`, kept
abstract: `derivePubkeyBytes` is `sk.get_verifying_key().to_string()`,
`signDigest` is `sk.sign_digest`, `pkFromBytes` is
`VerifyingKey.from_string` (`none` models the uncaught
`MalformedPointError`), and `verifyDigest` is `vk.verify_digest` with
`false` standing for a raised `BadSignatureError`. -/
structure Secp where
  SK : Type
  PK : Type
  derivePubkeyBytes : SK → List Nat
  signDigest : SK → List Nat → List Nat
  pkFromBytes : List Nat → Option PK
  verifyDigest : PK → List Nat → List Nat → Bool

/-- `IMPRINT_TAG`. -/
def IMPRINT_TAG : String := "imprint"

/-- The `deduped` accumulation loop of `ensure_imprint_tag`:
`for topic in topics or []: if topic and topic not in deduped: append`. -/
def dedupLoop (acc : List String) : List String → List String
  | [] => acc
  | t :: ts => if t ≠ "" ∧ t ∉ acc then dedupLoop (acc ++ [t]) ts else dedupLoop acc ts

/-- `ensure_imprint_tag(topics)`. -/
def ensure_imprint_tag (topics : Option (List String)) : List String :=
  let deduped := dedupLoop [] (topics.getD [])
  if IMPRINT_TAG ∈ deduped then deduped else deduped ++ [IMPRINT_TAG]

/-- `serialize_event`: `json.dumps([0, pubkey, created_at, kind, tags,
content], separators=(",", ":"), ensure_ascii=False)`.  The arguments are
arbitrary Python values, as in the source. -/
def serialize_event (pubkey created_at kind tags content : PyVal) :
    Except PyErr String :=
  pyDumps false "," ":" (.list [.int 0, pubkey, created_at, kind, tags, content])

/-- `compute_event_id(serialized)`: `sha256(... ).hexdigest()`, with the
digest function `sha` (the external `hashlib.sha256`) as a parameter. -/
def compute_event_id (sha : String → List Nat) (serialized : String) : String :=
  hexEncode (sha serialized)

/-- `sign_event(sk, event)`: direct `event[...]` accesses (raising
`KeyError` when absent), canonical serialization, id computation, and
attaching `id` and `sig` to the same dict. -/
def sign_event (sha : String → List Nat) (C : Secp) (sk : C.SK) (event : PyDict) :
    Except PyErr PyDict := do
  let pubkey ← getItem event "pubkey"
  let created_at ← getItem event "created_at"
  let kind ← getItem event "kind"
  let tags ← getItem event "tags"
  let content ← getItem event "content"
  let serialized ← serialize_event pubkey created_at kind tags content
  let event_id := compute_event_id sha serialized
  match hexDecode event_id with
  | none => .error .valueError
  | some digest =>
      let signature := hexEncode (C.signDigest sk digest)
      .ok (dictSet (dictSet event "id" (.str event_id)) "sig" (.str signature))

/-- Python `event_id != event.get("id")` (negated): a `str` compares equal
only to an equal `str`. -/
def pyEqStr (s : String) (v : Option PyVal) : Bool :=
  match v with
  | some (.str t) => s == t
  | _ => false

/-- The `try:` body of `verify_event`, with each statement's possible
exceptions surfaced as `Except` errors in source order. -/
def verifyBody (sha : String → List Nat) (C : Secp) (event : PyDict) :
    Except PyErr Bool := do
  let pubkeyV ← getItem event "pubkey"
  let createdV ← getItem event "created_at"
  let kindV ← getItem event "kind"
  let tagsV := (dictGet event "tags").getD (.list [])
  let contentV := (dictGet event "content").getD (.str "")
  let serialized ← serialize_event pubkeyV createdV kindV tagsV contentV
  let event_id := compute_event_id sha serialized
  if pyEqStr event_id (dictGet event "id") = false then
    .ok false
  else
    match pubkeyV with
    | .str p =>
        match hexDecode p with
        | none => .error .valueError
        | some pb =>
            match C.pkFromBytes pb with
            | none => .error .assertionError
            | some vk =>
                match dictGet event "sig" with
                | none => .error .keyError
                | some (.str sg) =>
                    match hexDecode sg with
                    | none => .error .valueError
                    | some sb =>
                        match hexDecode event_id with
                        | none => .error .valueError
                        | some db => .ok (C.verifyDigest vk sb db)
                | some _ => .error .typeError
    | _ => .error .typeError

/-- The `except (BadSignatureError, KeyError, ValueError): return False`
clause: those three classes yield `False`; anything else propagates. -/
def pyCatch (r : Except PyErr Bool) : Except PyErr Bool :=
  match r with
  | .error .keyError => .ok false
  | .error .valueError => .ok false
  | .error .badSignature => .ok false
  | other => other

/-- `verify_event(event)`. -/
def verify_event (sha : String → List Nat) (C : Secp) (event : PyDict) :
    Except PyErr Bool :=
  pyCatch (verifyBody sha C event)

/-! ## `app/nostr/relay_client.py` -/

/-- The key-insertion loop of `dict.fromkeys(xs)`: each element is added
once, at its first occurrence. -/
def pyDedupLoop (acc : List String) : List String → List String
  | [] => acc
  | x :: xs => if x ∈ acc then pyDedupLoop acc xs else pyDedupLoop (acc ++ [x]) xs

/-- `list(dict.fromkeys(xs))`: order-preserving deduplication keeping the
first occurrence of each element. -/
def pyDedup (xs : List String) : List String :=
  pyDedupLoop [] xs

/-- `RelayBackoff` state: `cooldowns` and `failure_count` dicts, read with
default `0` (`dict.get(relay, 0)`; `record_success` writes the defaults
back, so total functions model the dicts exactly). -/
structure RelayBackoff where
  cooldowns : String → ℚ
  failures : String → Nat

/-- `RelayBackoff.is_on_cooldown(relay)` at time `now`. -/
def is_on_cooldown (b : RelayBackoff) (relay : String) (now : ℚ) : Bool :=
  b.cooldowns relay > now

/-- `RelayBackoff.record_failure(relay)` at time `now`. -/
def record_failure (b : RelayBackoff) (relay : String) (now : ℚ) : RelayBackoff :=
  let fs := b.failures relay + 1
  let delay : Nat := min 120 (5 * 2 ^ (fs - 1))
  { failures := fun r => if r = relay then fs else b.failures r
    cooldowns := fun r => if r = relay then now + (delay : ℚ) else b.cooldowns r }

/-- `RelayBackoff.record_success(relay)`. -/
def record_success (b : RelayBackoff) (relay : String) : RelayBackoff :=
  { failures := fun r => if r = relay then 0 else b.failures r
    cooldowns := fun r => if r = relay then 0 else b.cooldowns r }

/-- `_TTLCache` store: key to `(expires_at, value)`. -/
def TTLStore (α : Type) := String → Option (ℚ × α)

/-- `_TTLCache.get` (an expired entry is a miss). -/
def cacheGet {α : Type} (store : TTLStore α) (key : String) (now : ℚ) : Option α :=
  match store key with
  | none => none
  | some (expires_at, value) => if expires_at < now then none else some value

/-- `_TTLCache.set` with `ttl_seconds = 30`. -/
def cacheSet {α : Type} (store : TTLStore α) (key : String) (value : α) (now : ℚ) :
    TTLStore α :=
  fun k => if k = key then some (now + 30, value) else store k

/-- `_TTLCache.invalidate()` with no prefix: clear everything. -/
def cacheInvalidate {α : Type} (_store : TTLStore α) : TTLStore α := fun _ => none

/-- `RelayClient` configuration (`max_relays_for_reads/writes`). -/
structure ClientCfg where
  maxReads : Nat
  maxWrites : Nat

/-- `RelayClient` mutable state: the backoff tracker and the fetch cache. -/
structure ClientState where
  backoff : RelayBackoff
  cache : TTLStore (List PyDict)

/-- Lexicographic code-point comparison of character lists, the order
Python uses to compare strings. -/
def strLtChars : List Char → List Char → Bool
  | [], [] => false
  | [], _ :: _ => true
  | _ :: _, [] => false
  | x :: xs, y :: ys =>
      if x.toNat < y.toNat then true
      else if y.toNat < x.toNat then false
      else strLtChars xs ys

/-- Python string `<`. -/
def sLt (a b : String) : Bool := strLtChars a.data b.data

/-- Insertion into a strictly sorted list, skipping duplicates. -/
def insertSortedU (x : String) : List String → List String
  | [] => [x]
  | y :: ys =>
      if x = y then y :: ys
      else if sLt x y then x :: y :: ys
      else y :: insertSortedU x ys

/-- `sorted(set(relays))`: the strictly sorted list of the distinct
relays. -/
def sortedSet (relays : List String) : List String :=
  relays.foldr insertSortedU []

/-- The `fetch_events` cache key:
`f"{json.dumps(filters, sort_keys=True)}|{','.join(sorted(set(relays)))}"`
(`json.dumps` with default separators `", "`/`": "`). -/
def cacheKey (filters : List PyVal) (relays : List String) : Except PyErr String := do
  let s ← pyDumps true ", " ": " (.list filters)
  .ok (s ++ "|" ++ String.intercalate "," (sortedSet relays))

/-- `RelayClient.publish_event(event, relays)`.

`skip` is `_should_skip()` (the `PYTEST_CURRENT_TEST` guard); `outcome r`
tells whether the network send to `r` succeeds (the `_send_event` I/O is
external).  Returns the per-relay status map, the list of relays that get
a connection attempt, and the new client state.  Per-send completion
times are collapsed to the call time `now`; all cooldown checks happen
before any send starts, as in the source. -/
def publish_event (cfg : ClientCfg) (skip : Bool) (outcome : String → Bool)
    (now : ℚ) (_event : PyDict) (relays : List String) (st : ClientState) :
    List (String × String) × List String × ClientState :=
  if skip then ([], [], st)
  else
    let st := { st with cache := cacheInvalidate st.cache }
    let targets := (pyDedup relays).take cfg.maxWrites
    let results := targets.map (fun r =>
      (r, if is_on_cooldown st.backoff r now then "cooldown"
          else if outcome r then "ok" else "error"))
    let attempted := targets.filter (fun r => !is_on_cooldown st.backoff r now)
    let backoff := attempted.foldl
      (fun b r => if outcome r then record_success b r else record_failure b r now)
      st.backoff
    (results, attempted, { st with backoff := backoff })

/-- `RelayClient.fetch_events(filters, relays)`.

`outcome r` is the stream of events relay `r` returns (`none` models a
connection/protocol failure).  Returns the events, the relays that get a
connection attempt, and the new state.  The `json.dumps` in the cache-key
computation happens outside the per-relay `try`, so its `TypeError`
propagates. -/
def fetch_events (cfg : ClientCfg) (skip : Bool)
    (outcome : String → Option (List PyDict)) (now : ℚ)
    (filters : List PyVal) (relays : List String) (st : ClientState) :
    Except PyErr (List PyDict × List String × ClientState) := do
  if skip then .ok ([], [], st)
  else
    let key ← cacheKey filters relays
    match cacheGet st.cache key now with
    | some cached => .ok (cached, [], st)
    | none =>
        let targets := (pyDedup relays).take cfg.maxReads
        let attempted := targets.filter (fun r => !is_on_cooldown st.backoff r now)
        let events := attempted.foldl
          (fun acc r => match outcome r with
            | some evs => acc ++ evs
            | none => acc) []
        let backoff := attempted.foldl
          (fun b r => match outcome r with
            | some _ => record_success b r
            | none => record_failure b r now)
          st.backoff
        .ok (events, attempted,
          { backoff := backoff, cache := cacheSet st.cache key events now })

/-! ## `app/nostr/key.py` and the `bech32` reference library -/

/-- The bech32 data-character set. -/
def CHARSET : String := "qpzry9x8gf2tvdw0s3jn54khce6mua7l"

/-- `CHARSET.find(c)`: index of `c`, or `-1` when absent, modelled as
`Option Nat`. -/
def charsetFind (c : Char) : Option Nat :=
  let idx := CHARSET.toList.indexOf c
  if idx < CHARSET.toList.length then some idx else none

/-- `bech32_polymod` generator constants. -/
def bech32Gen : List Nat :=
  [0x3b6a57b2, 0x26508e6d, 0x1ea119fa, 0x3d4233dd, 0x2a1462b3]

/-- `bech32_polymod(values)`. -/
def bech32Polymod (values : List Nat) : Nat :=
  values.foldl
    (fun chk value =>
      let b := chk >>> 25
      let chk := ((chk &&& 0x1ffffff) <<< 5) ^^^ value
      (List.range 5).foldl
        (fun chk i => if (b >>> i) &&& 1 = 1 then chk ^^^ bech32Gen.getD i 0 else chk)
        chk)
    1

/-- `bech32_hrp_expand(hrp)`. -/
def bech32HrpExpand (hrp : String) : List Nat :=
  hrp.toList.map (fun c => c.toNat >>> 5) ++ [0] ++ hrp.toList.map (fun c => c.toNat &&& 31)

/-- `bech32_verify_checksum(hrp, data)`. -/
def bech32VerifyChecksum (hrp : String) (data : List Nat) : Bool :=
  bech32Polymod (bech32HrpExpand hrp ++ data) == 1

/-- `s.rfind(c)`: position of the last occurrence, `none` for `-1`. -/
def rfindChar (cs : List Char) (c : Char) : Option Nat :=
  match cs.reverse.indexOf? c with
  | none => none
  | some i => some (cs.length - 1 - i)

/-- ASCII-range `str.lower()` on one character (the inputs reaching it
are pre-checked to be in the range 33–126). -/
def asciiLower (c : Char) : Char :=
  if 65 ≤ c.toNat ∧ c.toNat ≤ 90 then Char.ofNat (c.toNat + 32) else c

/-- ASCII-range `str.upper()` on one character. -/
def asciiUpper (c : Char) : Char :=
  if 97 ≤ c.toNat ∧ c.toNat ≤ 122 then Char.ofNat (c.toNat - 32) else c

/-- `bech32_decode(bech)` from the reference library: character-range and
mixed-case checks, separator position checks, charset check, checksum
verification; returns the hrp and the data part without its 6-character
checksum. -/
def bech32_decode (bech : String) : Option (String × List Nat) :=
  let cs0 := bech.toList
  if cs0.any (fun c => c.toNat < 33 ∨ 126 < c.toNat) then none
  else if cs0.map asciiLower ≠ cs0 ∧ cs0.map asciiUpper ≠ cs0 then none
  else
    let cs := cs0.map asciiLower
    match rfindChar cs '1' with
    | none => none
    | some pos =>
        if pos < 1 ∨ pos + 7 > cs.length ∨ cs.length > 90 then none
        else if (cs.drop (pos + 1)).any (fun c => (charsetFind c).isNone) then none
        else
          let data := (cs.drop (pos + 1)).filterMap charsetFind
          let hrp := String.mk (cs.take pos)
          if bech32VerifyChecksum hrp data then
            some (hrp, data.take (data.length - 6))
          else none

/-- The `while bits >= tobits` emission loop inside `convertbits`.  Each
iteration lowers `bits` by `tobits ≥ 1`, so `fuel = bits` bounds the
iteration count; with that fuel the function computes exactly the loop. -/
def cbEmitF (tobits maxv : Nat) : Nat → Nat → Nat → List Nat → Nat × List Nat
  | 0, _, bits, ret => (bits, ret)
  | fuel + 1, acc, bits, ret =>
      if 0 < tobits ∧ tobits ≤ bits then
        cbEmitF tobits maxv fuel acc (bits - tobits)
          (ret ++ [(acc >>> (bits - tobits)) &&& maxv])
      else (bits, ret)

/-- The emission loop entered with full fuel. -/
def cbEmit (tobits maxv acc bits : Nat) (ret : List Nat) : Nat × List Nat :=
  cbEmitF tobits maxv bits acc bits ret

/-- `convertbits(data, frombits, tobits, pad)` from the reference library. -/
def convertbits (data : List Nat) (frombits tobits : Nat) (pad : Bool) :
    Option (List Nat) :=
  go data 0 0 []
where
  go : List Nat → Nat → Nat → List Nat → Option (List Nat)
    | [], acc, bits, ret =>
        if pad then
          if 0 < bits then some (ret ++ [(acc <<< (tobits - bits)) &&& ((1 <<< tobits) - 1)])
          else some ret
        else if frombits ≤ bits ∨ (acc <<< (tobits - bits)) &&& ((1 <<< tobits) - 1) ≠ 0 then
          none
        else some ret
    | value :: rest, acc, bits, ret =>
        if value >>> frombits ≠ 0 then none
        else
          let acc := ((acc <<< frombits) ||| value) &&& ((1 <<< (frombits + tobits - 1)) - 1)
          let bits := bits + frombits
          let (bits, ret) := cbEmit tobits ((1 <<< tobits) - 1) acc bits ret
          go rest acc bits ret

/-- `decode_nip19`'s fallback branch for `npub1...` strings: strip the
separator and (when longer than 6 characters) the checksum, keep only
charset characters, and convert without verifying any checksum. -/
def nip19Fallback (nsec : String) : Except String String :=
  if ("npub1".toList).isPrefixOf nsec.toList then
    let raw : List Char :=
      match rfindChar nsec.toList '1' with
      | none => []
      | some sep => nsec.toList.drop (sep + 1)
    let payload := if 6 < raw.length then raw.take (raw.length - 6) else raw
    let data5 := payload.filterMap charsetFind
    match convertbits data5 5 8 false with
    | some decoded =>
        if decoded ≠ [] then .ok (hexEncode decoded) else .error "Invalid NIP-19 key"
    | none => .error "Invalid NIP-19 key"
  else .error "Invalid NIP-19 key"

/-- `decode_nip19(nsec)`: checksum-verified decode for `nsec`/`npub`
strings, then the checksum-free `npub1` fallback, else
`NostrKeyError("Invalid NIP-19 key")`. -/
def decode_nip19 (nsec : String) : Except String String :=
  match bech32_decode nsec with
  | some (hrp, data) =>
      if hrp = "nsec" ∨ hrp = "npub" then
        match convertbits data 5 8 false with
        | none => .error "Failed to decode bech32 key"
        | some decoded => .ok (hexEncode decoded)
      else nip19Fallback nsec
  | none => nip19Fallback nsec

/-! ## `app/services/engagement.py` (`hydrate_from_relays`) -/

/-- Python `int(s)` on a decimal string: optional surrounding ASCII
whitespace, optional sign, a nonempty run of digits; `none` models the
`ValueError` on anything else. -/
def pyInt (s : String) : Option Int :=
  let cs := s.toList.dropWhile (fun c => c.isWhitespace)
  let cs := (cs.reverse.dropWhile (fun c => c.isWhitespace)).reverse
  let (neg, ds) :=
    match cs with
    | '-' :: rest => (true, rest)
    | '+' :: rest => (false, rest)
    | rest => (false, rest)
  if ds ≠ [] ∧ ds.all (fun c => c.isDigit) then
    let n : Nat := ds.foldl (fun acc c => 10 * acc + (c.toNat - 48)) 0
    some (if neg then -(n : Int) else (n : Int))
  else none

/-- An event as consumed by `hydrate_from_relays` after fetching:
`kind`, `pubkey` (`event.get("pubkey", "")`) and `tags`
(`event.get("tags") or []`). -/
structure REvent where
  kind : Int
  pubkey : String
  tags : List (List String)

/-- The per-event target ids: `tag[1]` for every tag with
`tag and tag[0] == "e" and len(tag) > 1`. -/
def eTargets (tags : List (List String)) : List String :=
  tags.filterMap (fun tag =>
    match tag with
    | "e" :: x :: _ => some x
    | _ => none)

/-- The first well-formed `amount` tag value, if any. -/
def firstAmount (tags : List (List String)) : Option String :=
  tags.findSome? (fun tag =>
    match tag with
    | "amount" :: x :: _ => some x
    | _ => none)

/-- The sats added per zap attribution: `amount = int(tag[1]) // 1000`
(floor division) on the first `amount` tag, `0` on `ValueError` or when
no tag matches, then `max(amount, 0)`. -/
def zapSats (tags : List (List String)) : Int :=
  let amount : Int :=
    match firstAmount tags with
    | none => 0
    | some s =>
        match pyInt s with
        | some n => Int.fdiv n 1000
        | none => 0
  max amount 0

/-- In-memory engagement state: `_likes` and `_zaps` (count, sats),
defaulting to empty/zero as the source's `defaultdict`s do. -/
structure EngState where
  likes : String → Finset String
  zaps : String → Nat × Int

/-- The body of the `for eid in target_ids` loop for one target id. -/
def applyTo (ids : List String) (kind : Int) (pubkey : String) (sats : Int)
    (st : EngState) (eid : String) : EngState :=
  if eid ∈ ids then
    if kind = 7 then
      { st with likes := fun k => if k = eid then insert pubkey (st.likes eid) else st.likes k }
    else if kind = 9735 then
      { st with zaps := fun k =>
          if k = eid then ((st.zaps eid).1 + 1, (st.zaps eid).2 + sats) else st.zaps k }
    else st
  else st

/-- Processing of one verified fetched event: compute its target ids
(falling back to the whole request when no `e` tag parses) and apply it
to each. -/
def processEvent (ids : List String) (st : EngState) (e : REvent) : EngState :=
  let tids0 := eTargets e.tags
  let tids := if tids0 = [] then ids else tids0
  tids.foldl (applyTo ids e.kind e.pubkey (zapSats e.tags)) st

/-- The reset loop: `_likes[eid] = set(); _zaps[eid] = {count: 0, sats: 0}`
for every requested id. -/
def resetIds (ids : List String) (st : EngState) : EngState :=
  { likes := fun k => if k ∈ ids then ∅ else st.likes k
    zaps := fun k => if k ∈ ids then (0, 0) else st.zaps k }

/-- The final merge loop: `_likes[eid].update(existing_likes.get(eid, set()))`. -/
def mergeLikes (ids : List String) (old : String → Finset String) (st : EngState) :
    EngState :=
  { st with likes := fun k => if k ∈ ids then st.likes k ∪ old k else st.likes k }

/-- `hydrate_from_relays(event_ids, relays)` as a pure function of the
fetched events: dedupe the request, snapshot then reset the counters,
fold the verified events, merge the optimistic likes back.  `skip` is
`_should_skip_network()`; `verify` is `verify_event` on the decoded
event, abstract here. -/
def hydrate_from_relays (skip : Bool) (verify : REvent → Bool)
    (event_ids : List String) (fetched : List REvent) (st : EngState) : EngState :=
  let ids := pyDedup event_ids
  if ids = [] ∨ skip then st
  else
    let st1 := resetIds ids st
    let st2 := fetched.foldl (fun s e => if verify e then processEvent ids s e else s) st1
    mergeLikes ids st.likes st2

/-- How many times one verified fetched event bumps the zap counter of a
given requested id: its multiplicity among the event's target ids, for
kind-9735 events. -/
def zapContrib (ids : List String) (e : REvent) (eid : String) : Nat :=
  if e.kind = 9735 then
    (if eTargets e.tags = [] then ids else eTargets e.tags).count eid
  else 0

/-! ## Auxiliary definitions for the claims -/

/-- `n` consecutive `record_failure(relay)` calls at the given times. -/
def applyFailures (b : RelayBackoff) (relay : String) (times : List ℚ) : RelayBackoff :=
  times.foldl (fun b t => record_failure b relay t) b

/-- First-occurrence-order deduplication, the specification shape that
the imperative loops (`dict.fromkeys`, the `ensure_imprint_tag` loop)
are compared against. -/
def dedupFirst : List String → List String
  | [] => []
  | x :: xs => x :: dedupFirst (xs.filter (fun y => y ≠ x))
termination_by l => l.length
decreasing_by
  simp only [List.length_cons]
  exact Nat.lt_succ_of_le (List.length_filter_le _ _)

/-- A trivial instantiation of the crypto parameters, used to exhibit
concrete inputs: signing returns the digest itself and verification
compares the signature with the digest. -/
def toySecp : Secp where
  SK := Unit
  PK := Unit
  derivePubkeyBytes := fun _ => List.replicate 64 0
  signDigest := fun _ d => d
  pkFromBytes := fun _ => some ()
  verifyDigest := fun _ sb db => sb == db

/-- A trivial instantiation of the digest parameter: a constant 32-byte
digest. -/
def toySha : String → List Nat := fun _ => List.replicate 32 0

/-- The draft dict handed to `sign_event` by `build_long_form_event`-style
callers: `pubkey`, `created_at`, `kind`, `tags`, `content`. -/
def mkDraft (pubkeyHex : String) (created_at kind : Int)
    (tags : List (List String)) (content : String) : PyDict :=
  [("pubkey", .str pubkeyHex),
   ("created_at", .int created_at),
   ("kind", .int kind),
   ("tags", .list (tags.map (fun t => .list (t.map .str)))),
   ("content", .str content)]

/-! ## Theorems -/

theorem applyFailures_failures (b : RelayBackoff) (r : String) (ts : List ℚ) :
    (applyFailures b r ts).failures r = b.failures r + ts.length := by
  induction ts generalizing b with
  | nil => simp [applyFailures]
  | cons t ts ih =>
      simp only [applyFailures, List.foldl_cons] at ih ⊢
      rw [ih]
      simp [record_failure]
      omega

theorem applyFailures_cooldown (b : RelayBackoff) (r : String) (init : List ℚ)
    (t : ℚ) (h0 : b.failures r = 0) :
    (applyFailures b r (init ++ [t])).cooldowns r
      = t + ((min 120 (5 * 2 ^ init.length) : ℕ) : ℚ) := by
  have hf : (applyFailures b r init).failures r = init.length := by
    rw [applyFailures_failures, h0, Nat.zero_add]
  have hsplit : applyFailures b r (init ++ [t])
      = record_failure (applyFailures b r init) r t := by
    simp [applyFailures, List.foldl_append]
  rw [hsplit]
  simp only [record_failure, hf, if_pos rfl]
  simp

/-- **C4.** After `n ≥ 1` consecutive `record_failure(r)` calls starting
from a zero failure streak, with no intervening `record_success(r)`, the
cooldown expiry is the time of the `n`-th failure plus
`min(120, 5·2^(n−1))` seconds, `is_on_cooldown(r)` holds exactly before
that expiry, and a single `record_success(r)` resets the streak to `0`
and makes `is_on_cooldown(r)` false immediately (at any nonnegative
clock reading). -/
theorem backoff_streak_cooldown (b0 : RelayBackoff) (r : String) (ts : List ℚ)
    (h0 : b0.failures r = 0) (hne : ts ≠ []) :
    (applyFailures b0 r ts).cooldowns r
        = ts.getLast hne + ((min 120 (5 * 2 ^ (ts.length - 1)) : ℕ) : ℚ)
    ∧ (∀ t : ℚ, is_on_cooldown (applyFailures b0 r ts) r t = true ↔
        t < ts.getLast hne + ((min 120 (5 * 2 ^ (ts.length - 1)) : ℕ) : ℚ))
    ∧ (record_success (applyFailures b0 r ts) r).failures r = 0
    ∧ (∀ t : ℚ, 0 ≤ t →
        is_on_cooldown (record_success (applyFailures b0 r ts) r) r t = false) := by
  obtain ⟨init, last, rfl⟩ : ∃ init last, ts = init ++ [last] := by
    rcases ts.eq_nil_or_concat with h | ⟨init, last, h⟩
    · exact absurd h hne
    · exact ⟨init, last, by simpa [List.concat_eq_append] using h⟩
  have hlast : (init ++ [last]).getLast hne = last := by
    simp [List.getLast_append]
  have hlen : (init ++ [last]).length - 1 = init.length := by simp
  have hcool := applyFailures_cooldown b0 r init last h0
  refine ⟨?_, ?_, ?_, ?_⟩
  · rw [hcool, hlast, hlen]
  · intro t
    rw [hlast, hlen]
    simp [is_on_cooldown, hcool]
  · simp [record_success]
  · intro t ht
    simp only [is_on_cooldown, record_success, if_pos rfl]
    simpa using not_lt.mpr ht

theorem backoff_streak_cooldown_witness :
    (applyFailures ⟨fun _ => 0, fun _ => 0⟩ "wss://r" [1, 2, 3]).cooldowns "wss://r" = 23
    ∧ is_on_cooldown (applyFailures ⟨fun _ => 0, fun _ => 0⟩ "wss://r" [1, 2, 3]) "wss://r" 22 = true
    ∧ is_on_cooldown (applyFailures ⟨fun _ => 0, fun _ => 0⟩ "wss://r" [1, 2, 3]) "wss://r" 23 = false
    ∧ is_on_cooldown
        (record_success (applyFailures ⟨fun _ => 0, fun _ => 0⟩ "wss://r" [1, 2, 3]) "wss://r")
        "wss://r" 23 = false := by
  have h := backoff_streak_cooldown ⟨fun _ => 0, fun _ => 0⟩ "wss://r" [1, 2, 3] rfl (by simp)
  obtain ⟨h1, h2, _h3, h4⟩ := h
  norm_num [List.getLast] at h1 h2
  refine ⟨h1, (h2 22).mpr (by norm_num), ?_, h4 23 (by norm_num)⟩
  rw [Bool.eq_false_iff]
  intro hc
  have := (h2 23).mp hc
  norm_num at this

/-- **C9.** When the `PYTEST_CURRENT_TEST` guard is active,
`publish_event` returns an empty result map and `fetch_events` returns an
empty list, with no connection attempts, no backoff updates, and no
cache invalidation: the client state is returned unchanged. -/
theorem skip_under_test (cfg : ClientCfg) (poutcome : String → Bool)
    (foutcome : String → Option (List PyDict)) (now : ℚ) (event : PyDict)
    (filters : List PyVal) (relays : List String) (st : ClientState) :
    publish_event cfg true poutcome now event relays st = ([], [], st)
    ∧ fetch_events cfg true foutcome now filters relays st = .ok ([], [], st) := by
  exact ⟨rfl, rfl⟩

theorem pyDedupLoop_eq (l : List String) :
    ∀ acc, pyDedupLoop acc l = acc ++ dedupFirst (l.filter (fun y => y ∉ acc)) := by
  induction l with
  | nil => intro acc; simp [pyDedupLoop, dedupFirst]
  | cons t ts ih =>
      intro acc
      by_cases h : t ∈ acc
      · rw [pyDedupLoop, if_pos h, ih]
        have hfilter : (t :: ts).filter (fun y => y ∉ acc)
            = ts.filter (fun y => y ∉ acc) := by
          simp only [List.filter_cons, decide_eq_false (by simpa using h : ¬t ∉ acc)]
          simp
        rw [hfilter]
      · rw [pyDedupLoop, if_neg h, ih]
        have hfilter : (t :: ts).filter (fun y => y ∉ acc)
            = t :: ts.filter (fun y => y ∉ acc) := by
          simp only [List.filter_cons, decide_eq_true (by simpa using h : t ∉ acc), if_true]
        rw [hfilter, dedupFirst]
        have hff : (ts.filter (fun y => y ∉ acc)).filter (fun y => y ≠ t)
            = ts.filter (fun y => y ∉ acc ++ [t]) := by
          rw [List.filter_filter]
          apply List.filter_congr
          intro x _
          rw [← Bool.decide_and, decide_eq_decide]
          simp only [List.mem_append, List.mem_singleton]
          tauto
        rw [hff]
        simp

theorem pyDedup_eq_dedupFirst : ∀ l, pyDedup l = dedupFirst l := by
  intro l
  rw [pyDedup, pyDedupLoop_eq]
  simp

theorem mem_dedupFirst {x : String} : ∀ {l : List String}, x ∈ dedupFirst l ↔ x ∈ l := by
  intro l
  induction l using dedupFirst.induct with
  | case1 => simp [dedupFirst]
  | case2 y ys ih =>
      rw [dedupFirst]
      by_cases hxy : x = y
      · subst hxy; simp
      · simp only [List.mem_cons, ih, List.mem_filter]
        constructor
        · rintro (h | ⟨h, _⟩)
          · exact Or.inl h
          · exact Or.inr h
        · rintro (h | h)
          · exact Or.inl h
          · exact Or.inr ⟨h, by simpa using hxy⟩

theorem nodup_dedupFirst : ∀ l : List String, (dedupFirst l).Nodup := by
  intro l
  induction l using dedupFirst.induct with
  | case1 => simp [dedupFirst]
  | case2 y ys ih =>
      rw [dedupFirst]
      refine List.nodup_cons.mpr ⟨?_, ih⟩
      rw [mem_dedupFirst]
      simp

theorem dedupLoop_eq (l : List String) :
    ∀ acc, dedupLoop acc l
      = acc ++ dedupFirst (l.filter (fun t => t ≠ "" ∧ t ∉ acc)) := by
  induction l with
  | nil => intro acc; simp [dedupLoop, dedupFirst]
  | cons t ts ih =>
      intro acc
      by_cases h : t ≠ "" ∧ t ∉ acc
      · rw [dedupLoop, if_pos h, ih]
        have hp : (fun y => decide (y ≠ "" ∧ y ∉ acc)) t = true := decide_eq_true h
        have hfilter : (t :: ts).filter (fun y => y ≠ "" ∧ y ∉ acc)
            = t :: ts.filter (fun y => y ≠ "" ∧ y ∉ acc) := by
          simp only [List.filter_cons, hp, if_true]
        rw [hfilter, dedupFirst]
        have hff : (ts.filter (fun y => y ≠ "" ∧ y ∉ acc)).filter (fun y => y ≠ t)
            = ts.filter (fun y => y ≠ "" ∧ y ∉ acc ++ [t]) := by
          rw [List.filter_filter]
          apply List.filter_congr
          intro x _
          rw [← Bool.decide_and, decide_eq_decide]
          simp only [List.mem_append, List.mem_singleton]
          tauto
        rw [hff]
        simp
      · rw [dedupLoop, if_neg h, ih]
        have hp : (fun y => decide (y ≠ "" ∧ y ∉ acc)) t = false := decide_eq_false h
        have hfilter : (t :: ts).filter (fun y => y ≠ "" ∧ y ∉ acc)
            = ts.filter (fun y => y ≠ "" ∧ y ∉ acc) := by
          simp only [List.filter_cons, hp]
          simp
        rw [hfilter]

theorem dedupLoop_nil_eq (l : List String) :
    dedupLoop [] l = dedupFirst (l.filter (fun t => t ≠ "")) := by
  rw [dedupLoop_eq]
  simp

/-- **C8.** `ensure_imprint_tag` returns, in order of first occurrence,
the distinct non-empty input topics (duplicates and empty strings
dropped) with `"imprint"` appended when not already present: the result
contains `"imprint"` exactly once, contains exactly the distinct
non-empty input topics besides it, and has no duplicates. -/
theorem ensure_imprint_tag_spec (topics : Option (List String)) :
    ensure_imprint_tag topics
      = (if "imprint" ∈ dedupFirst ((topics.getD []).filter (fun t => t ≠ ""))
         then dedupFirst ((topics.getD []).filter (fun t => t ≠ ""))
         else dedupFirst ((topics.getD []).filter (fun t => t ≠ "")) ++ ["imprint"])
    ∧ (ensure_imprint_tag topics).count "imprint" = 1
    ∧ (∀ t, t ∈ ensure_imprint_tag topics
        ↔ (t = "imprint" ∨ (t ∈ topics.getD [] ∧ t ≠ "")))
    ∧ (ensure_imprint_tag topics).Nodup := by
  have heq : ensure_imprint_tag topics
      = (if "imprint" ∈ dedupFirst ((topics.getD []).filter (fun t => t ≠ ""))
         then dedupFirst ((topics.getD []).filter (fun t => t ≠ ""))
         else dedupFirst ((topics.getD []).filter (fun t => t ≠ "")) ++ ["imprint"]) := by
    rw [ensure_imprint_tag, dedupLoop_nil_eq, IMPRINT_TAG]
  have hmemd : ∀ t, t ∈ dedupFirst ((topics.getD []).filter (fun y => y ≠ ""))
      ↔ (t ∈ topics.getD [] ∧ t ≠ "") := by
    intro t
    rw [mem_dedupFirst, List.mem_filter]
    simp
  have hnd := nodup_dedupFirst ((topics.getD []).filter (fun t => t ≠ ""))
  have hmem : ∀ t, t ∈ ensure_imprint_tag topics
      ↔ (t = "imprint" ∨ (t ∈ topics.getD [] ∧ t ≠ "")) := by
    intro t
    rw [heq]
    by_cases h : "imprint" ∈ dedupFirst ((topics.getD []).filter (fun y => y ≠ ""))
    · rw [if_pos h, hmemd]
      constructor
      · exact fun ht => Or.inr ht
      · rintro (rfl | ht)
        · exact (hmemd "imprint").mp h
        · exact ht
    · rw [if_neg h]
      simp only [List.mem_append, List.mem_singleton, hmemd]
      tauto
  have hnodup : (ensure_imprint_tag topics).Nodup := by
    rw [heq]
    by_cases h : "imprint" ∈ dedupFirst ((topics.getD []).filter (fun y => y ≠ ""))
    · rw [if_pos h]; exact hnd
    · rw [if_neg h]
      refine List.Nodup.append hnd (by simp) ?_
      intro x hx hy
      rw [List.mem_singleton] at hy
      exact h (hy ▸ hx)
  have hcount : (ensure_imprint_tag topics).count "imprint" = 1 := by
    have hm : "imprint" ∈ ensure_imprint_tag topics := (hmem "imprint").mpr (Or.inl rfl)
    have hle := List.nodup_iff_count_le_one.mp hnodup "imprint"
    have hpos : 0 < (ensure_imprint_tag topics).count "imprint" :=
      List.count_pos_iff.mpr hm
    omega
  exact ⟨heq, hcount, hmem, hnodup⟩

theorem mem_pyDedup {x : String} {l : List String} : x ∈ pyDedup l ↔ x ∈ l := by
  rw [pyDedup_eq_dedupFirst]
  exact mem_dedupFirst

theorem nodup_pyDedup (l : List String) : (pyDedup l).Nodup := by
  rw [pyDedup_eq_dedupFirst]
  exact nodup_dedupFirst l

/-- **C5 (amended).** `publish_event` and `fetch_events` attempt
connections to at most the configured maximum number of relays, every
attempted relay comes from the request list and is not on cooldown, and
(for publish) a cooldown relay among the first `max_writes` deduplicated
relays is reported `"cooldown"` without an attempt.  The attempted set is
the non-cooldown part of the first `max` deduplicated relays in list
order — a cooldown relay within that prefix still consumes a slot. -/
theorem fanout_bounded (cfg : ClientCfg) (outcome : String → Bool)
    (foutcome : String → Option (List PyDict)) (now : ℚ) (event : PyDict)
    (filters : List PyVal) (relays : List String) (st : ClientState) :
    (publish_event cfg false outcome now event relays st).2.1
        = ((pyDedup relays).take cfg.maxWrites).filter
            (fun r => !is_on_cooldown st.backoff r now)
    ∧ (publish_event cfg false outcome now event relays st).2.1.length ≤ cfg.maxWrites
    ∧ (∀ r ∈ (publish_event cfg false outcome now event relays st).2.1,
        r ∈ relays ∧ is_on_cooldown st.backoff r now = false)
    ∧ (∀ r ∈ (pyDedup relays).take cfg.maxWrites,
        is_on_cooldown st.backoff r now = true →
          (r, "cooldown") ∈ (publish_event cfg false outcome now event relays st).1
          ∧ r ∉ (publish_event cfg false outcome now event relays st).2.1)
    ∧ (∀ out, fetch_events cfg false foutcome now filters relays st = .ok out →
        out.2.1.length ≤ cfg.maxReads
        ∧ ∀ r ∈ out.2.1, r ∈ relays ∧ is_on_cooldown st.backoff r now = false) := by
  have hmemtake : ∀ r ∈ (pyDedup relays).take cfg.maxWrites, r ∈ relays := by
    intro r hr
    exact mem_pyDedup.mp (List.mem_of_mem_take hr)
  have hmemtake' : ∀ r ∈ (pyDedup relays).take cfg.maxReads, r ∈ relays := by
    intro r hr
    exact mem_pyDedup.mp (List.mem_of_mem_take hr)
  refine ⟨rfl, ?_, ?_, ?_, ?_⟩
  · calc (((pyDedup relays).take cfg.maxWrites).filter
          (fun r => !is_on_cooldown st.backoff r now)).length
        ≤ ((pyDedup relays).take cfg.maxWrites).length := List.length_filter_le _ _
      _ ≤ cfg.maxWrites := List.length_take_le _ _
  · intro r hr
    have hr' : r ∈ ((pyDedup relays).take cfg.maxWrites).filter
        (fun r => !is_on_cooldown st.backoff r now) := hr
    rw [List.mem_filter] at hr'
    refine ⟨hmemtake r hr'.1, ?_⟩
    simpa using hr'.2
  · intro r hr hc
    constructor
    · show (r, "cooldown") ∈ ((pyDedup relays).take cfg.maxWrites).map _
      refine List.mem_map.mpr ⟨r, hr, ?_⟩
      rw [hc]
      simp
    · intro habs
      have : r ∈ ((pyDedup relays).take cfg.maxWrites).filter
          (fun r => !is_on_cooldown st.backoff r now) := habs
      rw [List.mem_filter, hc] at this
      simpa using this.2
  · intro out hout
    rw [fetch_events] at hout
    rcases hkey : cacheKey filters relays with e | key
    · simp [hkey, bind, Except.bind] at hout
    · simp only [Bool.false_eq_true, if_false, hkey, bind, Except.bind] at hout
      rcases hcache : cacheGet st.cache key now with _ | cached
      · simp only [hcache] at hout
        rw [Except.ok.injEq] at hout
        subst hout
        constructor
        · calc (((pyDedup relays).take cfg.maxReads).filter
                (fun r => !is_on_cooldown st.backoff r now)).length
              ≤ ((pyDedup relays).take cfg.maxReads).length := List.length_filter_le _ _
            _ ≤ cfg.maxReads := List.length_take_le _ _
        · intro r hr
          rw [List.mem_filter] at hr
          refine ⟨hmemtake' r hr.1, ?_⟩
          simpa using hr.2
      · simp only [hcache] at hout
        rw [Except.ok.injEq] at hout
        subst hout
        simp

theorem fanout_bounded_witness :
    ("r1", "cooldown") ∈ (publish_event ⟨5, 5⟩ false (fun _ => true) 0 []
        ["r1", "r2"]
        ⟨⟨fun r => if r = "r1" then 100 else 0, fun _ => 0⟩, fun _ => none⟩).1
    ∧ ("r2" ∈ ["r1", "r2"]
        ∧ is_on_cooldown ⟨fun r => if r = "r1" then 100 else 0, fun _ => 0⟩ "r2" 0 = false)
    ∧ (["r2"] : List String).length ≤ 5 := by
  have h := fanout_bounded ⟨5, 5⟩ (fun _ => true) (fun _ => some []) 0 [] []
    ["r1", "r2"] ⟨⟨fun r => if r = "r1" then 100 else 0, fun _ => 0⟩, fun _ => none⟩
  exact ⟨(h.2.2.2.1 "r1" (by decide) (by decide)).1,
    h.2.2.1 "r2" (by decide), (h.2.2.2.2 _ rfl).1⟩

/-- **C5 (counterexample).** With the default limit of 5 write relays and
six requested relays of which the first is on cooldown, the code attempts
only `r2`–`r5`: the cooldown relay `r1` consumes a fan-out slot, so `r6`
is never attempted, although the first five non-cooldown relays in list
order are `r2`–`r6`. -/
theorem fanout_cex :
    (publish_event ⟨5, 5⟩ false (fun _ => true) 0 []
        ["r1", "r2", "r3", "r4", "r5", "r6"]
        ⟨⟨fun r => if r = "r1" then 100 else 0, fun _ => 0⟩, fun _ => none⟩).2.1
      = ["r2", "r3", "r4", "r5"]
    ∧ ((pyDedup ["r1", "r2", "r3", "r4", "r5", "r6"]).filter
        (fun r => !is_on_cooldown ⟨fun r => if r = "r1" then 100 else 0, fun _ => 0⟩ r 0)).take 5
      = ["r2", "r3", "r4", "r5", "r6"]
    ∧ (["r2", "r3", "r4", "r5"] : List String) ≠ ["r2", "r3", "r4", "r5", "r6"] := by
  refine ⟨rfl, rfl, by decide⟩

theorem strLtChars_irrefl : ∀ cs, strLtChars cs cs = false := by
  intro cs
  induction cs with
  | nil => rfl
  | cons x xs ih => simp [strLtChars, ih]

theorem strLtChars_asymm :
    ∀ as bs, strLtChars as bs = true → strLtChars bs as = false := by
  intro as
  induction as with
  | nil =>
      intro bs h
      cases bs with
      | nil => simp [strLtChars] at h
      | cons y ys => simp [strLtChars]
  | cons x xs ih =>
      intro bs h
      cases bs with
      | nil => simp [strLtChars] at h
      | cons y ys =>
          rw [strLtChars] at h ⊢
          by_cases hxy : x.toNat < y.toNat
          · rw [if_neg (by omega), if_pos hxy]
          · rw [if_neg hxy] at h
            by_cases hyx : y.toNat < x.toNat
            · rw [if_pos hyx] at h
              exact absurd h (by simp)
            · rw [if_neg hyx] at h
              rw [if_neg hyx, if_neg hxy]
              exact ih ys h

theorem strLtChars_total_eq :
    ∀ as bs, strLtChars as bs = false → strLtChars bs as = false → as = bs := by
  intro as
  induction as with
  | nil =>
      intro bs h1 _h2
      cases bs with
      | nil => rfl
      | cons y ys => simp [strLtChars] at h1
  | cons x xs ih =>
      intro bs h1 h2
      cases bs with
      | nil => simp [strLtChars] at h2
      | cons y ys =>
          rw [strLtChars] at h1 h2
          by_cases hxy : x.toNat < y.toNat
          · rw [if_pos hxy] at h1
            exact absurd h1 (by simp)
          · by_cases hyx : y.toNat < x.toNat
            · rw [if_pos hyx] at h2
              exact absurd h2 (by simp)
            · rw [if_neg hxy, if_neg hyx] at h1
              rw [if_neg hyx, if_neg hxy] at h2
              have hnat : x.toNat = y.toNat := by omega
              have hchar : x = y := by
                rw [← Char.ofNat_toNat x, hnat, Char.ofNat_toNat y]
              rw [hchar, ih ys h1 h2]

theorem strLtChars_trans :
    ∀ as bs cs, strLtChars as bs = true → strLtChars bs cs = true →
      strLtChars as cs = true := by
  intro as
  induction as with
  | nil =>
      intro bs cs h1 h2
      cases bs with
      | nil => simp [strLtChars] at h1
      | cons y ys =>
          cases cs with
          | nil => simp [strLtChars] at h2
          | cons z zs => simp [strLtChars]
  | cons x xs ih =>
      intro bs cs h1 h2
      cases bs with
      | nil => simp [strLtChars] at h1
      | cons y ys =>
          cases cs with
          | nil => simp [strLtChars] at h2
          | cons z zs =>
              rw [strLtChars] at h1 h2 ⊢
              by_cases hxy : x.toNat < y.toNat
              · by_cases hyz : y.toNat < z.toNat
                · rw [if_pos (by omega)]
                · rw [if_neg hyz] at h2
                  by_cases hzy : z.toNat < y.toNat
                  · rw [if_pos hzy] at h2
                    exact absurd h2 (by simp)
                  · rw [if_pos (by omega)]
              · rw [if_neg hxy] at h1
                by_cases hyx : y.toNat < x.toNat
                · rw [if_pos hyx] at h1
                  exact absurd h1 (by simp)
                · rw [if_neg hyx] at h1
                  by_cases hyz : y.toNat < z.toNat
                  · rw [if_pos (by omega)]
                  · rw [if_neg hyz] at h2
                    by_cases hzy : z.toNat < y.toNat
                    · rw [if_pos hzy] at h2
                      exact absurd h2 (by simp)
                    · rw [if_neg hzy] at h2
                      rw [if_neg (by omega), if_neg (by omega)]
                      exact ih ys zs h1 h2

theorem sLt_irrefl (a : String) : sLt a a = false := strLtChars_irrefl _

theorem sLt_asymm {a b : String} (h : sLt a b = true) : sLt b a = false :=
  strLtChars_asymm _ _ h

theorem sLt_total_eq {a b : String} (h1 : sLt a b = false) (h2 : sLt b a = false) :
    a = b := by
  cases a with
  | mk as =>
      cases b with
      | mk bs =>
          have := strLtChars_total_eq as bs h1 h2
          rw [this]

theorem sLt_trans {a b c : String} (h1 : sLt a b = true) (h2 : sLt b c = true) :
    sLt a c = true :=
  strLtChars_trans _ _ _ h1 h2

theorem mem_insertSortedU {z x : String} :
    ∀ {l : List String}, z ∈ insertSortedU x l ↔ z = x ∨ z ∈ l := by
  intro l
  induction l with
  | nil => simp [insertSortedU]
  | cons y ys ih =>
      rw [insertSortedU]
      by_cases hxy : x = y
      · rw [if_pos hxy]
        subst hxy
        simp only [List.mem_cons]
        tauto
      · rw [if_neg hxy]
        by_cases hlt : sLt x y
        · rw [if_pos hlt]
          simp only [List.mem_cons]
        · rw [if_neg hlt]
          simp only [List.mem_cons, ih]
          tauto

theorem sortedChain_insertSortedU {x : String} :
    ∀ {l : List String}, l.Pairwise (fun a b => sLt a b = true) →
      (insertSortedU x l).Pairwise (fun a b => sLt a b = true) := by
  intro l
  induction l with
  | nil =>
      intro _
      simp [insertSortedU]
  | cons y ys ih =>
      intro h
      rw [List.pairwise_cons] at h
      rw [insertSortedU]
      by_cases hxy : x = y
      · rw [if_pos hxy]
        exact List.pairwise_cons.mpr h
      · rw [if_neg hxy]
        by_cases hlt : sLt x y
        · rw [if_pos hlt]
          refine List.pairwise_cons.mpr ⟨?_, List.pairwise_cons.mpr h⟩
          intro z hz
          rcases List.mem_cons.mp hz with rfl | hz'
          · exact hlt
          · exact sLt_trans hlt (h.1 z hz')
        · rw [if_neg hlt]
          have hyx : sLt y x = true := by
            rcases Bool.eq_false_or_eq_true (sLt y x) with h' | h'
            · exact h'
            · exact absurd (sLt_total_eq (Bool.eq_false_iff.mpr hlt) h') hxy
          refine List.pairwise_cons.mpr ⟨?_, ih h.2⟩
          intro z hz
          rcases mem_insertSortedU.mp hz with rfl | hz'
          · exact hyx
          · exact h.1 z hz'

theorem sortedChain_eq_of_mem_iff :
    ∀ (l1 l2 : List String), l1.Pairwise (fun a b => sLt a b = true) →
      l2.Pairwise (fun a b => sLt a b = true) →
      (∀ z, z ∈ l1 ↔ z ∈ l2) → l1 = l2 := by
  intro l1
  induction l1 with
  | nil =>
      intro l2 _ _ hmem
      cases l2 with
      | nil => rfl
      | cons y ys => simpa using (hmem y).mpr (by simp)
  | cons x xs ih =>
      intro l2 h1 h2 hmem
      cases l2 with
      | nil => simpa using (hmem x).mp (by simp)
      | cons y ys =>
          rw [List.pairwise_cons] at h1 h2
          have hxy : x = y := by
            by_contra hne
            have hx2 : x ∈ ys := by
              rcases List.mem_cons.mp ((hmem x).mp (by simp)) with h | h
              · exact absurd h hne
              · exact h
            have hy1 : y ∈ xs := by
              rcases List.mem_cons.mp ((hmem y).mpr (by simp)) with h | h
              · exact absurd h.symm hne
              · exact h
            have hxy' : sLt x y = true := h1.1 y hy1
            have hyx' : sLt y x = true := h2.1 x hx2
            rw [sLt_asymm hxy'] at hyx'
            exact Bool.false_ne_true hyx'
          subst hxy
          have hmem' : ∀ z, z ∈ xs ↔ z ∈ ys := by
            intro z
            constructor
            · intro hz
              have hzx : z ≠ x := by
                intro he
                have := h1.1 z hz
                rw [he, sLt_irrefl] at this
                exact Bool.false_ne_true this
              rcases List.mem_cons.mp ((hmem z).mp (List.mem_cons_of_mem _ hz)) with h | h
              · exact absurd h hzx
              · exact h
            · intro hz
              have hzx : z ≠ x := by
                intro he
                have := h2.1 z hz
                rw [he, sLt_irrefl] at this
                exact Bool.false_ne_true this
              rcases List.mem_cons.mp ((hmem z).mpr (List.mem_cons_of_mem _ hz)) with h | h
              · exact absurd h hzx
              · exact h
          rw [ih ys h1.2 h2.2 hmem']

theorem sortedChain_sortedSet (l : List String) :
    (sortedSet l).Pairwise (fun a b => sLt a b = true) := by
  induction l with
  | nil => simp [sortedSet]
  | cons x xs ih => exact sortedChain_insertSortedU ih

theorem mem_sortedSet {z : String} :
    ∀ {l : List String}, z ∈ sortedSet l ↔ z ∈ l := by
  intro l
  induction l with
  | nil => simp [sortedSet]
  | cons x xs ih =>
      show z ∈ insertSortedU x (sortedSet xs) ↔ _
      rw [mem_insertSortedU, ih]
      simp

theorem sortedSet_ext {l1 l2 : List String} (h : ∀ z, z ∈ l1 ↔ z ∈ l2) :
    sortedSet l1 = sortedSet l2 := by
  refine sortedChain_eq_of_mem_iff _ _ (sortedChain_sortedSet l1) (sortedChain_sortedSet l2) ?_
  intro z
  rw [mem_sortedSet, mem_sortedSet]
  exact h z

/-- **C6 (amended).** The `fetch_events` cache key is computed from the
filter list in list order (`sort_keys` only sorts the keys inside each
filter object) and from the relay *set*: relay lists with the same
members give the same key.  Two calls with equal filter lists and
relay sets therefore map to the same cache entry: a cache hit returns
the cached events with no connection attempts and no state change, and a
`cacheSet` entry is still returned up to 30 seconds later.  Every
non-skipped `publish_event` call invalidates the whole fetch cache
before publishing. -/
theorem cache_key_relayset_and_publish_invalidates :
    (∀ (filters : List PyVal) (r1 r2 : List String),
        (∀ x, x ∈ r1 ↔ x ∈ r2) → cacheKey filters r1 = cacheKey filters r2)
    ∧ (∀ (cfg : ClientCfg) (foutcome : String → Option (List PyDict)) (now : ℚ)
        (filters : List PyVal) (relays : List String) (st : ClientState)
        (key : String) (cached : List PyDict),
        cacheKey filters relays = .ok key →
        cacheGet st.cache key now = some cached →
        fetch_events cfg false foutcome now filters relays st = .ok (cached, [], st))
    ∧ (∀ (store : TTLStore (List PyDict)) (key : String) (v : List PyDict) (now t : ℚ),
        t ≤ now + 30 → cacheGet (cacheSet store key v now) key t = some v)
    ∧ (∀ (cfg : ClientCfg) (outcome : String → Bool) (now : ℚ) (event : PyDict)
        (relays : List String) (st : ClientState) (k : String),
        (publish_event cfg false outcome now event relays st).2.2.cache k = none) := by
  refine ⟨?_, ?_, ?_, ?_⟩
  · intro filters r1 r2 h
    rw [cacheKey, cacheKey, sortedSet_ext h]
  · intro cfg foutcome now filters relays st key cached hkey hcache
    rw [fetch_events]
    simp only [Bool.false_eq_true, if_false, hkey, bind, Except.bind, hcache]
  · intro store key v now t ht
    simp only [cacheGet, cacheSet, eq_self_iff_true, if_true]
    rw [if_neg (not_lt.mpr ht)]
  · intro cfg outcome now event relays st k
    rfl

theorem cache_key_relayset_witness :
    cacheKey [] ["b", "a"] = cacheKey [] ["a", "b", "a"]
    ∧ fetch_events ⟨5, 5⟩ false (fun _ => some []) 0 [] ["r"]
        ⟨⟨fun _ => 0, fun _ => 0⟩,
         fun k => if k = "[]|r" then some (35, [[("id", PyVal.str "x")]]) else none⟩
        = .ok ([[("id", PyVal.str "x")]], [],
            ⟨⟨fun _ => 0, fun _ => 0⟩,
             fun k => if k = "[]|r" then some (35, [[("id", PyVal.str "x")]]) else none⟩)
    ∧ cacheGet (cacheSet ((fun _ => none) : TTLStore (List PyDict)) "k" [] 0) "k" 29
        = some [] := by
  refine ⟨?_, ?_, ?_⟩
  · exact cache_key_relayset_and_publish_invalidates.1 [] ["b", "a"] ["a", "b", "a"]
      (by intro x; simp [List.mem_cons]; tauto)
  · exact cache_key_relayset_and_publish_invalidates.2.1 ⟨5, 5⟩ (fun _ => some []) 0 []
      ["r"] _ "[]|r" [[("id", PyVal.str "x")]] rfl rfl
  · exact cache_key_relayset_and_publish_invalidates.2.2.1
      ((fun _ => none) : TTLStore (List PyDict)) "k" [] 0 29 (by norm_num)

/-- **C6 (counterexample).** Two filter lists that are permutations of
each other (with identical relay sets) get *different* cache keys:
`json.dumps(filters, sort_keys=True)` sorts only dict keys inside each
filter, not the filter list, so permuted filter lists do not map to the
same cache entry. -/
theorem cache_key_filter_order_cex :
    List.Perm
      [PyVal.dict [("kinds", PyVal.list [PyVal.int 1])],
       PyVal.dict [("kinds", PyVal.list [PyVal.int 2])]]
      [PyVal.dict [("kinds", PyVal.list [PyVal.int 2])],
       PyVal.dict [("kinds", PyVal.list [PyVal.int 1])]]
    ∧ cacheKey
        [PyVal.dict [("kinds", PyVal.list [PyVal.int 1])],
         PyVal.dict [("kinds", PyVal.list [PyVal.int 2])]] ["r"]
        = .ok "[\x7b\"kinds\": [1]\x7d, \x7b\"kinds\": [2]\x7d]|r"
    ∧ cacheKey
        [PyVal.dict [("kinds", PyVal.list [PyVal.int 2])],
         PyVal.dict [("kinds", PyVal.list [PyVal.int 1])]] ["r"]
        = .ok "[\x7b\"kinds\": [2]\x7d, \x7b\"kinds\": [1]\x7d]|r"
    ∧ ("[\x7b\"kinds\": [1]\x7d, \x7b\"kinds\": [2]\x7d]|r"
        ≠ "[\x7b\"kinds\": [2]\x7d, \x7b\"kinds\": [1]\x7d]|r") := by
  refine ⟨List.Perm.swap _ _ _, rfl, rfl, by decide⟩

/-- **C3 (amended).** `decode_nip19` succeeds on checksum-valid bech32
strings with hrp `nsec`/`npub` (raising the decode error only when the
5→8-bit regrouping fails); for any string that fails bech32 validation
(bad checksum included) or carries an unrecognized hrp it raises
`Invalid NIP-19 key` — *unless* the string starts with `npub1`, in which
case a checksum-ignoring fallback may still return a decoded value. -/
theorem decode_nip19_spec :
    (∀ s hrp data, bech32_decode s = some (hrp, data) →
        (hrp = "nsec" ∨ hrp = "npub") →
        ∀ d, convertbits data 5 8 false = some d →
          decode_nip19 s = .ok (hexEncode d))
    ∧ (∀ s hrp data, bech32_decode s = some (hrp, data) →
        (hrp = "nsec" ∨ hrp = "npub") →
        convertbits data 5 8 false = none →
          decode_nip19 s = .error "Failed to decode bech32 key")
    ∧ (∀ s, bech32_decode s = none →
        ¬ (("npub1".toList).isPrefixOf s.toList) →
          decode_nip19 s = .error "Invalid NIP-19 key")
    ∧ (∀ s hrp data, bech32_decode s = some (hrp, data) →
        hrp ≠ "nsec" → hrp ≠ "npub" →
        ¬ (("npub1".toList).isPrefixOf s.toList) →
          decode_nip19 s = .error "Invalid NIP-19 key") := by
  refine ⟨?_, ?_, ?_, ?_⟩
  · intro s hrp data hbd hset d hconv
    rw [decode_nip19]
    simp only [hbd, if_pos hset, hconv]
  · intro s hrp data hbd hset hconv
    rw [decode_nip19]
    simp only [hbd, if_pos hset, hconv]
  · intro s hbd hpre
    rw [decode_nip19]
    simp only [hbd, nip19Fallback, if_neg hpre]
  · intro s hrp data hbd hns hnp hpre
    rw [decode_nip19]
    simp only [hbd, if_neg (by tauto : ¬(hrp = "nsec" ∨ hrp = "npub")),
      nip19Fallback, if_neg hpre]

theorem decode_nip19_spec_witness :
    decode_nip19 "npub106246s" = .ok (hexEncode [])
    ∧ decode_nip19 "abc" = .error "Invalid NIP-19 key" := by
  refine ⟨?_, ?_⟩
  · exact decode_nip19_spec.1 "npub106246s" "npub" [] rfl (Or.inr rfl) [] rfl
  · exact decode_nip19_spec.2.2.1 "abc" rfl (by decide)

/-- **C3 (counterexample).** `"npub1qqqqqqqq"` fails bech32 checksum
validation (`bech32_decode` rejects it), yet `decode_nip19` returns a
decoded value `"00"` through the `npub1` fallback instead of raising the
invalid-encoding error. -/
theorem decode_nip19_cex :
    bech32_decode "npub1qqqqqqqq" = none
    ∧ bech32VerifyChecksum "npub" [0, 0, 0, 0, 0, 0, 0, 0] = false
    ∧ decode_nip19 "npub1qqqqqqqq" = .ok "00" :=
  ⟨rfl, rfl, rfl⟩

theorem applyTo_zaps (ids : List String) (kind : Int) (pk : String) (sats : Int)
    (st : EngState) (tid eid : String) :
    (applyTo ids kind pk sats st tid).zaps eid
      = if eid = tid ∧ tid ∈ ids ∧ kind = 9735
        then ((st.zaps eid).1 + 1, (st.zaps eid).2 + sats)
        else st.zaps eid := by
  rw [applyTo]
  by_cases h1 : tid ∈ ids
  · rw [if_pos h1]
    by_cases h7 : kind = 7
    · rw [if_pos h7]
      rw [if_neg (by rintro ⟨_, _, h⟩; rw [h7] at h; norm_num at h)]
    · rw [if_neg h7]
      by_cases h9 : kind = 9735
      · rw [if_pos h9]
        by_cases he : eid = tid
        · rw [if_pos ⟨he, h1, h9⟩]
          simp only [if_pos he]
          rw [he]
        · rw [if_neg (by tauto)]
          simp only [if_neg he]
      · rw [if_neg h9, if_neg (by tauto)]
  · rw [if_neg h1, if_neg (by tauto)]

theorem applyTo_likes_mono (ids : List String) (kind : Int) (pk : String) (sats : Int)
    (st : EngState) (tid eid : String) :
    st.likes eid ⊆ (applyTo ids kind pk sats st tid).likes eid := by
  rw [applyTo]
  by_cases h1 : tid ∈ ids
  · rw [if_pos h1]
    by_cases h7 : kind = 7
    · rw [if_pos h7]
      by_cases he : eid = tid
      · simp only [if_pos he]
        subst he
        exact Finset.subset_insert _ _
      · simp only [if_neg he]
        exact Finset.Subset.refl _
    · rw [if_neg h7]
      by_cases h9 : kind = 9735
      · rw [if_pos h9]
      · rw [if_neg h9]
  · rw [if_neg h1]

theorem applyTo_fold_zaps (ids : List String) (kind : Int) (pk : String) (sats : Int)
    (eid : String) (hmem : eid ∈ ids) :
    ∀ (tids : List String) (st : EngState),
      (tids.foldl (applyTo ids kind pk sats) st).zaps eid
        = ((st.zaps eid).1 + (if kind = 9735 then tids.count eid else 0),
           (st.zaps eid).2 + (if kind = 9735 then (tids.count eid : Int) * sats else 0)) := by
  intro tids
  induction tids with
  | nil =>
      intro st
      simp
  | cons t ts ih =>
      intro st
      rw [List.foldl_cons, ih, applyTo_zaps]
      by_cases h9 : kind = 9735
      · simp only [if_pos h9]
        by_cases he : eid = t
        · rw [if_pos ⟨he, he ▸ hmem, h9⟩, he, List.count_cons_self]
          rw [Prod.mk.injEq]
          constructor
          · omega
          · push_cast
            ring
        · rw [if_neg (by tauto), List.count_cons_of_ne he]
      · simp only [if_neg h9]
        rw [if_neg (by tauto)]

theorem applyTo_fold_likes_mono (ids : List String) (kind : Int) (pk : String)
    (sats : Int) (eid : String) :
    ∀ (tids : List String) (st : EngState),
      st.likes eid ⊆ (tids.foldl (applyTo ids kind pk sats) st).likes eid := by
  intro tids
  induction tids with
  | nil => intro st; simp
  | cons t ts ih =>
      intro st
      rw [List.foldl_cons]
      exact (applyTo_likes_mono ids kind pk sats st t eid).trans (ih _)

theorem applyTo_fold_likes_insert (ids : List String) (pk : String) (sats : Int)
    (eid : String) (hmem : eid ∈ ids) :
    ∀ (tids : List String) (st : EngState), eid ∈ tids →
      pk ∈ (tids.foldl (applyTo ids 7 pk sats) st).likes eid := by
  intro tids
  induction tids with
  | nil => intro st h; simp at h
  | cons t ts ih =>
      intro st h
      rw [List.foldl_cons]
      rcases List.mem_cons.mp h with rfl | hts
      · refine applyTo_fold_likes_mono ids 7 pk sats eid ts _ ?_
        rw [applyTo, if_pos hmem, if_pos rfl]
        simp only [if_pos rfl]
        exact Finset.mem_insert_self _ _
      · exact ih _ hts

theorem processEvent_zaps (ids : List String) (st : EngState) (e : REvent)
    (eid : String) (hmem : eid ∈ ids) :
    (processEvent ids st e).zaps eid
      = ((st.zaps eid).1 + zapContrib ids e eid,
         (st.zaps eid).2 + (zapContrib ids e eid : Int) * zapSats e.tags) := by
  rw [processEvent, applyTo_fold_zaps ids e.kind e.pubkey (zapSats e.tags) eid hmem,
    zapContrib]
  by_cases h9 : e.kind = 9735
  · simp only [if_pos h9]
  · simp only [if_neg h9]
    simp

theorem processEvent_likes_mono (ids : List String) (st : EngState) (e : REvent)
    (eid : String) :
    st.likes eid ⊆ (processEvent ids st e).likes eid :=
  applyTo_fold_likes_mono ids e.kind e.pubkey (zapSats e.tags) eid _ st

theorem hydrate_fold_zaps (ids : List String) (verify : REvent → Bool) (eid : String)
    (hmem : eid ∈ ids) :
    ∀ (evs : List REvent) (st : EngState),
      ((evs.foldl (fun s e => if verify e then processEvent ids s e else s) st).zaps eid)
        = ((st.zaps eid).1
              + ((evs.filter verify).map (fun e => zapContrib ids e eid)).sum,
           (st.zaps eid).2
              + ((evs.filter verify).map
                  (fun e => (zapContrib ids e eid : Int) * zapSats e.tags)).sum) := by
  intro evs
  induction evs with
  | nil => intro st; simp
  | cons e es ih =>
      intro st
      rw [List.foldl_cons]
      by_cases hv : verify e = true
      · rw [if_pos hv, ih, processEvent_zaps ids st e eid hmem,
          List.filter_cons_of_pos hv, List.map_cons, List.map_cons,
          List.sum_cons, List.sum_cons]
        rw [Prod.mk.injEq]
        constructor
        · omega
        · ring
      · rw [if_neg hv, ih, List.filter_cons_of_neg hv]

theorem hydrate_fold_likes_mono (ids : List String) (verify : REvent → Bool)
    (eid : String) :
    ∀ (evs : List REvent) (st : EngState),
      st.likes eid ⊆
        (evs.foldl (fun s e => if verify e then processEvent ids s e else s) st).likes eid := by
  intro evs
  induction evs with
  | nil => intro st; simp
  | cons e es ih =>
      intro st
      rw [List.foldl_cons]
      refine Finset.Subset.trans ?_ (ih _)
      by_cases hv : verify e = true
      · rw [if_pos hv]
        exact processEvent_likes_mono ids st e eid
      · rw [if_neg hv]

/-- **C7.** A `hydrate_from_relays` pass rebuilds the zap totals of every
requested id from scratch, from exactly the fetched events that pass
verification: the zap count of `eid` is the total number of attributions
of verified kind-9735 events to `eid` (one per occurrence of `eid` among
an event's target ids), the sats total adds
`max(int(amount) // 1000, 0)` from each such attribution (0 when the
first `amount` tag is missing or unparsable), independent of any prior
zap state; and the like set after the pass contains the like set held
before it (optimistic local likes are merged back in). -/
theorem hydrate_rebuilds_zaps_and_merges_likes (verify : REvent → Bool)
    (event_ids : List String) (fetched : List REvent) (st : EngState) (eid : String)
    (hmem : eid ∈ pyDedup event_ids) :
    ((hydrate_from_relays false verify event_ids fetched st).zaps eid).1
      = ((fetched.filter verify).map
          (fun e => zapContrib (pyDedup event_ids) e eid)).sum
    ∧ ((hydrate_from_relays false verify event_ids fetched st).zaps eid).2
      = ((fetched.filter verify).map
          (fun e => (zapContrib (pyDedup event_ids) e eid : Int) * zapSats e.tags)).sum
    ∧ st.likes eid ⊆ (hydrate_from_relays false verify event_ids fetched st).likes eid := by
  have hne : ¬(pyDedup event_ids = [] ∨ false = true) := by
    simp [List.ne_nil_of_mem hmem]
  rw [hydrate_from_relays]
  simp only [if_neg hne]
  have hreset : ((resetIds (pyDedup event_ids) st).zaps eid) = (0, 0) := by
    rw [resetIds]
    simp only [if_pos hmem]
  refine ⟨?_, ?_, ?_⟩
  · show ((fetched.foldl _ (resetIds (pyDedup event_ids) st)).zaps eid).1 = _
    rw [hydrate_fold_zaps (pyDedup event_ids) verify eid hmem fetched, hreset]
    simp
  · show ((fetched.foldl _ (resetIds (pyDedup event_ids) st)).zaps eid).2 = _
    rw [hydrate_fold_zaps (pyDedup event_ids) verify eid hmem fetched, hreset]
    simp
  · show st.likes eid ⊆ (mergeLikes (pyDedup event_ids) st.likes _).likes eid
    rw [mergeLikes]
    simp only [if_pos hmem]
    exact Finset.subset_union_right

theorem hydrate_rebuilds_witness :
    (hydrate_from_relays false (fun _ => true) ["a", "b"]
        [⟨9735, "pk", [["e", "a"], ["amount", "1500"]]⟩]
        ⟨fun _ => {"v"}, fun _ => (0, 0)⟩).zaps "a" = (1, 1)
    ∧ "v" ∈ (hydrate_from_relays false (fun _ => true) ["a", "b"]
        [⟨9735, "pk", [["e", "a"], ["amount", "1500"]]⟩]
        ⟨fun _ => {"v"}, fun _ => (0, 0)⟩).likes "a" := by
  have h := hydrate_rebuilds_zaps_and_merges_likes (fun _ => true) ["a", "b"]
    [⟨9735, "pk", [["e", "a"], ["amount", "1500"]]⟩]
    ⟨fun _ => {"v"}, fun _ => (0, 0)⟩ "a" (by decide)
  refine ⟨?_, h.2.2 (by decide)⟩
  rw [Prod.ext_iff]
  exact ⟨by rw [h.1]; rfl, by rw [h.2.1]; rfl⟩

/-- **C10.** During `hydrate_from_relays`, a fetched event that passes
verification but has no (well-formed) `e` tag is attributed to *every*
requested event id: a kind-7 reaction adds its author's pubkey to the
like set of every requested id, and a kind-9735 receipt bumps the zap
count of every requested id by 1 and its sats by the event's amount
contribution (shown here for a single-event fetch, where the totals
are exactly `(1, zapSats)`). -/
theorem no_etag_attributes_all_ids (verify : REvent → Bool)
    (event_ids : List String) (st : EngState) (e : REvent) (eid : String)
    (hv : verify e = true) (hnotag : eTargets e.tags = [])
    (hmem : eid ∈ pyDedup event_ids) :
    (∀ fetched, e ∈ fetched → e.kind = 7 →
        e.pubkey ∈ (hydrate_from_relays false verify event_ids fetched st).likes eid)
    ∧ (e.kind = 9735 →
        (hydrate_from_relays false verify event_ids [e] st).zaps eid
          = (1, zapSats e.tags)) := by
  have hne : ¬(pyDedup event_ids = [] ∨ false = true) := by
    simp [List.ne_nil_of_mem hmem]
  constructor
  · intro fetched hef hk7
    rw [hydrate_from_relays]
    simp only [if_neg hne]
    show e.pubkey ∈ (mergeLikes (pyDedup event_ids) st.likes _).likes eid
    rw [mergeLikes]
    simp only [if_pos hmem]
    refine Finset.mem_union_left _ ?_
    obtain ⟨l1, l2, rfl⟩ := List.append_of_mem hef
    rw [List.foldl_append, List.foldl_cons, if_pos hv]
    refine hydrate_fold_likes_mono (pyDedup event_ids) verify eid l2 _ ?_
    rw [processEvent, hnotag, hk7]
    simp only [eq_self_iff_true, if_true]
    exact applyTo_fold_likes_insert (pyDedup event_ids) e.pubkey (zapSats e.tags) eid
      hmem (pyDedup event_ids) _ hmem
  · intro hk9
    rw [hydrate_from_relays]
    simp only [if_neg hne]
    show (mergeLikes (pyDedup event_ids) st.likes _).zaps eid = _
    have hcount : (pyDedup event_ids).count eid = 1 := by
      have h1 := List.nodup_iff_count_le_one.mp (nodup_pyDedup event_ids) eid
      have h2 : 0 < (pyDedup event_ids).count eid := List.count_pos_iff.mpr hmem
      omega
    have hcontrib : zapContrib (pyDedup event_ids) e eid = 1 := by
      rw [zapContrib, if_pos hk9, hnotag]
      simp only [if_pos rfl]
      exact hcount
    have hz := hydrate_fold_zaps (pyDedup event_ids) verify eid hmem [e]
      (resetIds (pyDedup event_ids) st)
    rw [List.filter_cons_of_pos hv, List.filter_nil] at hz
    have hreset : ((resetIds (pyDedup event_ids) st).zaps eid) = (0, 0) := by
      rw [resetIds]
      simp only [if_pos hmem]
    show (List.foldl (fun s e => if verify e then processEvent (pyDedup event_ids) s e else s)
        (resetIds (pyDedup event_ids) st) [e]).zaps eid = (1, zapSats e.tags)
    rw [hz, hreset]
    simp [hcontrib]

theorem no_etag_attributes_all_ids_witness :
    "pk" ∈ (hydrate_from_relays false (fun _ => true) ["a", "b"]
        [⟨7, "pk", [["p", "x"]]⟩] ⟨fun _ => ∅, fun _ => (0, 0)⟩).likes "b"
    ∧ (hydrate_from_relays false (fun _ => true) ["a", "b"]
        [⟨9735, "zapper", [["amount", "2000"]]⟩]
        ⟨fun _ => ∅, fun _ => (0, 0)⟩).zaps "b"
        = (1, zapSats [["amount", "2000"]]) := by
  constructor
  · exact (no_etag_attributes_all_ids (fun _ => true) ["a", "b"]
      ⟨fun _ => ∅, fun _ => (0, 0)⟩ ⟨7, "pk", [["p", "x"]]⟩ "b" rfl rfl (by decide)).1
      [⟨7, "pk", [["p", "x"]]⟩] (by simp) rfl
  · exact (no_etag_attributes_all_ids (fun _ => true) ["a", "b"]
      ⟨fun _ => ∅, fun _ => (0, 0)⟩ ⟨9735, "zapper", [["amount", "2000"]]⟩ "b" rfl rfl
      (by decide)).2 rfl

theorem pyDumpsList_map_str (sortKeys : Bool) (isep ksep : String) (l : List String) :
    pyDumpsList sortKeys isep ksep (l.map PyVal.str) = .ok (l.map jsonQuote) := by
  induction l with
  | nil => rfl
  | cons x xs ih =>
      rw [List.map_cons, List.map_cons, pyDumpsList]
      show (do
        let s ← pyDumps sortKeys isep ksep (.str x)
        let rest ← pyDumpsList sortKeys isep ksep (xs.map PyVal.str)
        Except.ok (s :: rest)) = _
      rw [ih]
      rfl

theorem pyDumpsList_tags (sortKeys : Bool) (isep ksep : String)
    (tags : List (List String)) :
    pyDumpsList sortKeys isep ksep (tags.map (fun (t : List String) => PyVal.list (t.map PyVal.str)))
      = .ok (tags.map (fun t =>
          "[" ++ String.intercalate isep (t.map jsonQuote) ++ "]")) := by
  induction tags with
  | nil => rfl
  | cons t ts ih =>
      rw [List.map_cons, List.map_cons, pyDumpsList]
      show (do
        let s ← pyDumps sortKeys isep ksep (.list (t.map PyVal.str))
        let rest ← pyDumpsList sortKeys isep ksep
          (ts.map (fun (t : List String) => PyVal.list (t.map PyVal.str)))
        Except.ok (s :: rest)) = _
      rw [ih, pyDumps]
      show (do
        let parts ← pyDumpsList sortKeys isep ksep (t.map PyVal.str)
        Except.ok ("[" ++ String.intercalate isep parts ++ "]")).bind _ = _
      rw [pyDumpsList_map_str]
      rfl

theorem serialize_event_mkDraft (p : String) (ca kd : Int) (tags : List (List String))
    (c : String) :
    serialize_event (.str p) (.int ca) (.int kd)
        (.list (tags.map (fun (t : List String) => PyVal.list (t.map PyVal.str)))) (.str c)
      = .ok ("[" ++ String.intercalate ","
          [toString (0 : Int), jsonQuote p, toString ca, toString kd,
           "[" ++ String.intercalate ","
             (tags.map (fun t => "[" ++ String.intercalate "," (t.map jsonQuote) ++ "]"))
             ++ "]",
           jsonQuote c] ++ "]") := by
  rw [serialize_event, pyDumps]
  show (do
    let parts ← pyDumpsList false "," ":"
      [.int 0, .str p, .int ca, .int kd,
       .list (tags.map (fun (t : List String) => PyVal.list (t.map PyVal.str))), .str c]
    Except.ok ("[" ++ String.intercalate "," parts ++ "]")) = _
  have hlist : pyDumpsList false "," ":"
      [.int 0, .str p, .int ca, .int kd,
       .list (tags.map (fun (t : List String) => PyVal.list (t.map PyVal.str))), .str c]
      = .ok [toString (0 : Int), jsonQuote p, toString ca, toString kd,
           "[" ++ String.intercalate ","
             (tags.map (fun t => "[" ++ String.intercalate "," (t.map jsonQuote) ++ "]"))
             ++ "]",
           jsonQuote c] := by
    rw [pyDumpsList]
    show (do
      let s ← pyDumps false "," ":" (.int 0)
      let rest ← pyDumpsList false "," ":"
        [.str p, .int ca, .int kd,
         .list (tags.map (fun (t : List String) => PyVal.list (t.map PyVal.str))), .str c]
      Except.ok (s :: rest)) = _
    rw [pyDumpsList]
    show (do
      let s ← pyDumps false "," ":" (.int 0)
      let rest ← (do
        let s1 ← pyDumps false "," ":" (.str p)
        let rest1 ← pyDumpsList false "," ":"
          [.int ca, .int kd,
           .list (tags.map (fun (t : List String) => PyVal.list (t.map PyVal.str))), .str c]
        Except.ok (s1 :: rest1))
      Except.ok (s :: rest)) = _
    rw [pyDumpsList]
    rw [pyDumpsList]
    rw [pyDumpsList]
    rw [pyDumpsList]
    rw [pyDumps]
    show (do
      let s ← Except.ok (toString (0 : Int))
      let rest ← (do
        let s1 ← Except.ok (jsonQuote p)
        let rest1 ← (do
          let s2 ← Except.ok (toString ca)
          let rest2 ← (do
            let s3 ← Except.ok (toString kd)
            let rest3 ← (do
              let s4 ← pyDumps false "," ":"
                (.list (tags.map (fun (t : List String) => PyVal.list (t.map PyVal.str))))
              let rest4 ← (do
                let s5 ← Except.ok (jsonQuote c)
                let rest5 ← Except.ok ([] : List String)
                Except.ok (s5 :: rest5))
              Except.ok (s4 :: rest4))
            Except.ok (s3 :: rest3))
          Except.ok (s2 :: rest2))
        Except.ok (s1 :: rest1))
      Except.ok (s :: rest)) = _
    rw [pyDumps]
    show (do
      let s ← Except.ok (toString (0 : Int))
      let rest ← (do
        let s1 ← Except.ok (jsonQuote p)
        let rest1 ← (do
          let s2 ← Except.ok (toString ca)
          let rest2 ← (do
            let s3 ← Except.ok (toString kd)
            let rest3 ← (do
              let s4 ← (do
                let parts ← pyDumpsList false "," ":"
                  (tags.map (fun (t : List String) => PyVal.list (t.map PyVal.str)))
                Except.ok ("[" ++ String.intercalate "," parts ++ "]"))
              let rest4 ← (do
                let s5 ← Except.ok (jsonQuote c)
                let rest5 ← Except.ok ([] : List String)
                Except.ok (s5 :: rest5))
              Except.ok (s4 :: rest4))
            Except.ok (s3 :: rest3))
          Except.ok (s2 :: rest2))
        Except.ok (s1 :: rest1))
      Except.ok (s :: rest)) = _
    rw [pyDumpsList_tags]
    rfl
  rw [hlist]
  rfl

theorem sign_event_eq (sha : String → List Nat) (C : Secp) (sk : C.SK) (d : PyDict)
    (pubkeyV createdV kindV tagsV contentV : PyVal) (S : String) (D : List Nat)
    (h1 : dictGet d "pubkey" = some pubkeyV)
    (h2 : dictGet d "created_at" = some createdV)
    (h3 : dictGet d "kind" = some kindV)
    (h4 : dictGet d "tags" = some tagsV)
    (h5 : dictGet d "content" = some contentV)
    (hS : serialize_event pubkeyV createdV kindV tagsV contentV = .ok S)
    (hdec : hexDecode (compute_event_id sha S) = some D) :
    sign_event sha C sk d
      = .ok (dictSet (dictSet d "id" (.str (compute_event_id sha S))) "sig"
          (.str (hexEncode (C.signDigest sk D)))) := by
  rw [sign_event]
  simp only [getItem, h1, h2, h3, h4, h5, hS, hdec, bind, Except.bind]

theorem verify_event_ok_of_path (sha : String → List Nat) (C : Secp) (event : PyDict)
    (p : String) (createdV kindV : PyVal) (pb sb db : List Nat) (vk : C.PK)
    (sg : String)
    (h1 : dictGet event "pubkey" = some (.str p))
    (h2 : dictGet event "created_at" = some createdV)
    (h3 : dictGet event "kind" = some kindV)
    (S : String)
    (hS : serialize_event (.str p) createdV kindV
        ((dictGet event "tags").getD (.list []))
        ((dictGet event "content").getD (.str "")) = .ok S)
    (hid : pyEqStr (compute_event_id sha S) (dictGet event "id") = true)
    (hpb : hexDecode p = some pb)
    (hvk : C.pkFromBytes pb = some vk)
    (hsig : dictGet event "sig" = some (.str sg))
    (hsb : hexDecode sg = some sb)
    (hdb : hexDecode (compute_event_id sha S) = some db) :
    verify_event sha C event = .ok (C.verifyDigest vk sb db) := by
  rw [verify_event, verifyBody]
  simp only [getItem, h1, h2, h3, hS, hid, hpb, hvk, hsig, hsb, hdb, bind, Except.bind]
  rw [if_neg (by simp)]
  rfl

theorem verify_event_false_of_missing_pubkey (sha : String → List Nat) (C : Secp)
    (event : PyDict) (h : dictGet event "pubkey" = none) :
    verify_event sha C event = .ok false := by
  rw [verify_event, verifyBody]
  simp only [getItem, h, bind, Except.bind]
  rfl

theorem verify_event_false_of_id_mismatch (sha : String → List Nat) (C : Secp)
    (event : PyDict) (pubkeyV createdV kindV : PyVal) (S : String)
    (h1 : dictGet event "pubkey" = some pubkeyV)
    (h2 : dictGet event "created_at" = some createdV)
    (h3 : dictGet event "kind" = some kindV)
    (hS : serialize_event pubkeyV createdV kindV
        ((dictGet event "tags").getD (.list []))
        ((dictGet event "content").getD (.str "")) = .ok S)
    (hid : pyEqStr (compute_event_id sha S) (dictGet event "id") = false) :
    verify_event sha C event = .ok false := by
  rw [verify_event, verifyBody]
  simp only [getItem, h1, h2, h3, hS, hid, bind, Except.bind]
  rfl

theorem verify_event_false_of_bad_pubkey_hex (sha : String → List Nat) (C : Secp)
    (event : PyDict) (p : String) (createdV kindV : PyVal) (S : String)
    (h1 : dictGet event "pubkey" = some (.str p))
    (h2 : dictGet event "created_at" = some createdV)
    (h3 : dictGet event "kind" = some kindV)
    (hS : serialize_event (.str p) createdV kindV
        ((dictGet event "tags").getD (.list []))
        ((dictGet event "content").getD (.str "")) = .ok S)
    (hid : pyEqStr (compute_event_id sha S) (dictGet event "id") = true)
    (hpb : hexDecode p = none) :
    verify_event sha C event = .ok false := by
  rw [verify_event, verifyBody]
  simp only [getItem, h1, h2, h3, hS, hid, hpb, bind, Except.bind]
  rw [if_neg (by simp)]
  rfl

/-- **C1.** For every well-formed draft whose `pubkey` is the hex
encoding of the public key derived from the signing key (with integer
`created_at`/`kind`, string-list tags and string content), the event
returned by `sign_event` verifies: `sign_event` hashes the canonical
serialization `[0, pubkey, created_at, kind, tags, content]` (compact
separators, non-ASCII unescaped), signs that digest, and `verify_event`
recomputes the same id from the event's own fields and accepts the
signature.  The `ecdsa` primitives are abstract, assumed only to produce
bytes and to accept their own signatures. -/
theorem sign_then_verify (sha : String → List Nat) (C : Secp) (sk : C.SK) (vk : C.PK)
    (hsha : ∀ s, ∀ b ∈ sha s, b < 256)
    (hpkb : ∀ b ∈ C.derivePubkeyBytes sk, b < 256)
    (hsigb : ∀ d, (∀ b ∈ d, b < 256) → ∀ b ∈ C.signDigest sk d, b < 256)
    (hpk : C.pkFromBytes (C.derivePubkeyBytes sk) = some vk)
    (hver : ∀ d, C.verifyDigest vk (C.signDigest sk d) d = true)
    (created_at kind : Int) (tags : List (List String)) (content : String) :
    ∃ ev, sign_event sha C sk
        (mkDraft (hexEncode (C.derivePubkeyBytes sk)) created_at kind tags content)
        = .ok ev
      ∧ verify_event sha C ev = .ok true := by
  obtain ⟨S, hS⟩ : ∃ S, serialize_event
      (.str (hexEncode (C.derivePubkeyBytes sk))) (.int created_at) (.int kind)
      (.list (tags.map (fun (t : List String) => PyVal.list (t.map PyVal.str))))
      (.str content) = .ok S :=
    ⟨_, serialize_event_mkDraft (hexEncode (C.derivePubkeyBytes sk))
      created_at kind tags content⟩
  have hdec : hexDecode (compute_event_id sha S) = some (sha S) := by
    rw [compute_event_id]
    exact hexDecode_hexEncode _ (hsha S)
  have hsign := sign_event_eq sha C sk
    (mkDraft (hexEncode (C.derivePubkeyBytes sk)) created_at kind tags content)
    (.str (hexEncode (C.derivePubkeyBytes sk))) (.int created_at) (.int kind)
    (.list (tags.map (fun (t : List String) => PyVal.list (t.map PyVal.str))))
    (.str content) S (sha S) rfl rfl rfl rfl rfl hS hdec
  refine ⟨_, hsign, ?_⟩
  have hverify := verify_event_ok_of_path sha C
    (dictSet (dictSet
      (mkDraft (hexEncode (C.derivePubkeyBytes sk)) created_at kind tags content)
      "id" (.str (compute_event_id sha S)))
      "sig" (.str (hexEncode (C.signDigest sk (sha S)))))
    (hexEncode (C.derivePubkeyBytes sk)) (.int created_at) (.int kind)
    (C.derivePubkeyBytes sk) (C.signDigest sk (sha S)) (sha S) vk
    (hexEncode (C.signDigest sk (sha S)))
    rfl rfl rfl S hS
    (by
      show (compute_event_id sha S == compute_event_id sha S) = true
      exact beq_self_eq_true _)
    (hexDecode_hexEncode _ hpkb) hpk rfl
    (hexDecode_hexEncode _ (hsigb (sha S) (hsha S))) hdec
  rw [hverify, hver (sha S)]

theorem sign_then_verify_witness :
    ∃ ev, sign_event toySha toySecp ()
        (mkDraft (hexEncode (toySecp.derivePubkeyBytes ())) 1700000000 30023
          [["t", "imprint"]] "hello") = .ok ev
      ∧ verify_event toySha toySecp ev = .ok true := by
  refine sign_then_verify toySha toySecp () () ?_ ?_ ?_ rfl ?_ 1700000000 30023
    [["t", "imprint"]] "hello"
  · intro s b hb
    rw [toySha] at hb
    rw [List.eq_of_mem_replicate hb]
    norm_num
  · intro b hb
    rw [List.eq_of_mem_replicate hb]
    norm_num
  · intro d hd b hb
    exact hd b hb
  · intro d
    show (d == d) = true
    exact beq_self_eq_true d

/-- **C2 (amended).** `verify_event` fails closed — returns `false`
rather than raising — for the structural errors its `except` clause
anticipates: a missing field (`KeyError`), an id mismatch, malformed hex
in a string-valued `pubkey` (`ValueError`), and a bad signature; but it
does *not* return a boolean for every input dictionary: a field whose
value is not JSON-serializable (e.g. `bytes`) makes `json.dumps` raise
`TypeError`, which the `except (BadSignatureError, KeyError, ValueError)`
clause does not catch. -/
theorem verify_event_fails_closed (sha : String → List Nat) (C : Secp) :
    (∀ event, dictGet event "pubkey" = none → verify_event sha C event = .ok false)
    ∧ (∀ (event : PyDict) (pubkeyV createdV kindV : PyVal) (S : String),
        dictGet event "pubkey" = some pubkeyV →
        dictGet event "created_at" = some createdV →
        dictGet event "kind" = some kindV →
        serialize_event pubkeyV createdV kindV
          ((dictGet event "tags").getD (.list []))
          ((dictGet event "content").getD (.str "")) = .ok S →
        pyEqStr (compute_event_id sha S) (dictGet event "id") = false →
        verify_event sha C event = .ok false)
    ∧ (∀ (event : PyDict) (p : String) (createdV kindV : PyVal) (S : String),
        dictGet event "pubkey" = some (.str p) →
        dictGet event "created_at" = some createdV →
        dictGet event "kind" = some kindV →
        serialize_event (.str p) createdV kindV
          ((dictGet event "tags").getD (.list []))
          ((dictGet event "content").getD (.str "")) = .ok S →
        pyEqStr (compute_event_id sha S) (dictGet event "id") = true →
        hexDecode p = none →
        verify_event sha C event = .ok false)
    ∧ (∀ (event : PyDict) (p : String) (createdV kindV : PyVal)
        (pb sb db : List Nat) (vk : C.PK) (sg : String) (S : String),
        dictGet event "pubkey" = some (.str p) →
        dictGet event "created_at" = some createdV →
        dictGet event "kind" = some kindV →
        serialize_event (.str p) createdV kindV
          ((dictGet event "tags").getD (.list []))
          ((dictGet event "content").getD (.str "")) = .ok S →
        pyEqStr (compute_event_id sha S) (dictGet event "id") = true →
        hexDecode p = some pb →
        C.pkFromBytes pb = some vk →
        dictGet event "sig" = some (.str sg) →
        hexDecode sg = some sb →
        hexDecode (compute_event_id sha S) = some db →
        verify_event sha C event = .ok (C.verifyDigest vk sb db)) := by
  refine ⟨verify_event_false_of_missing_pubkey sha C, ?_, ?_, ?_⟩
  · intro event pubkeyV createdV kindV S h1 h2 h3 hS hid
    exact verify_event_false_of_id_mismatch sha C event pubkeyV createdV kindV S
      h1 h2 h3 hS hid
  · intro event p createdV kindV S h1 h2 h3 hS hid hpb
    exact verify_event_false_of_bad_pubkey_hex sha C event p createdV kindV S
      h1 h2 h3 hS hid hpb
  · intro event p createdV kindV pb sb db vk sg S h1 h2 h3 hS hid hpb hvk hsig hsb hdb
    exact verify_event_ok_of_path sha C event p createdV kindV pb sb db vk sg
      h1 h2 h3 S hS hid hpb hvk hsig hsb hdb

theorem verify_event_fails_closed_witness :
    verify_event toySha toySecp [("created_at", PyVal.int 0)] = .ok false
    ∧ verify_event toySha toySecp
        [("pubkey", PyVal.str "zz"), ("created_at", PyVal.int 0),
         ("kind", PyVal.int 1),
         ("id", PyVal.str (hexEncode (List.replicate 32 0)))] = .ok false
    ∧ verify_event toySha toySecp
        [("pubkey", PyVal.str "00"), ("created_at", PyVal.int 0),
         ("kind", PyVal.int 1),
         ("id", PyVal.str (hexEncode (List.replicate 32 0))),
         ("sig", PyVal.str "ff")] = .ok false := by
  refine ⟨?_, ?_, ?_⟩
  · exact (verify_event_fails_closed toySha toySecp).1 [("created_at", PyVal.int 0)] rfl
  · exact (verify_event_fails_closed toySha toySecp).2.2.1
      [("pubkey", PyVal.str "zz"), ("created_at", PyVal.int 0),
       ("kind", PyVal.int 1), ("id", PyVal.str (hexEncode (List.replicate 32 0)))]
      "zz" (PyVal.int 0) (PyVal.int 1) "[0,\"zz\",0,1,[],\"\"]"
      rfl rfl rfl rfl (by decide) rfl
  · have h := (verify_event_fails_closed toySha toySecp).2.2.2
      [("pubkey", PyVal.str "00"), ("created_at", PyVal.int 0),
       ("kind", PyVal.int 1), ("id", PyVal.str (hexEncode (List.replicate 32 0))),
       ("sig", PyVal.str "ff")]
      "00" (PyVal.int 0) (PyVal.int 1) [0] [255] (List.replicate 32 0) () "ff"
      "[0,\"00\",0,1,[],\"\"]"
      rfl rfl rfl rfl (by decide) rfl rfl rfl rfl (by decide)
    rw [h]
    rfl

/-- **C2 (counterexample).** A dictionary whose `pubkey` value is a
`bytes` object (with `created_at` and `kind` present, so serialization is
reached) makes `verify_event` raise `TypeError` from `json.dumps` instead
of returning `false`: the raise happens before any hashing or signature
work, for every digest/curve instantiation. -/
theorem verify_event_raises_cex :
    verify_event toySha toySecp
      [("pubkey", PyVal.bytes []), ("created_at", PyVal.int 0), ("kind", PyVal.int 1)]
      = .error .typeError := rfl

end Imprint
